import Mathlib

set_option maxHeartbeats 1000000
set_option maxRecDepth 100000

/-!
Verification development for the BreezyBox virtual-terminal manager
(`src/vterm.c`, zero-copy / swap-architecture variant, together with its
header constants: `VTERM_COUNT = 4`, `VTERM_COLS = 128`, `VTERM_ROWS = 37`).

The development is a shallow embedding:

* bytes are modelled as `Nat` (the C code compares `char` values only against
  constants in `0..126`, where signed and unsigned `char` agree);
* the cell grid is modelled as a total function `Int → VtCell`; the C code
  indexes its `vterm_cell_t *` buffers with `int` expressions, and all
  operations touch only indices in `[0, VTERM_ROWS*VTERM_COLS)` when the
  cursor invariant holds;
* `int` cursor fields are modelled as `Int`;
* the per-session `dirty` flag is modelled at the session (system) level:
  inside `vterm.c` the flag is write-only (`vterm_putchar` / `vterm_write`
  set it unconditionally after processing, which subsumes the redundant
  interior `vt->dirty = 1` updates in the `ESC D/M/E` branches), so the
  byte-interpreter level (`Vt`) omits it;
* FreeRTOS queues of capacity 64 are modelled as bounded lists; a send on a
  full queue drops the byte (`xQueueSend` with timeout 0);
* `xTaskGetTickCount()` values are passed to the input-feed function as an
  explicit `Nat` parameter, and `pdMS_TO_TICKS(20)` (whose value depends on
  the FreeRTOS tick rate) is abstracted as a parameter `T`; tick arithmetic
  assumes the monotone, non-wrapping regime of the 32-bit tick counter.
-/

/-! ### Header constants (`vterm.h`) -/

abbrev VTERM_COUNT : Nat := 4
abbrev VTERM_COLS : Nat := 128
abbrev VTERM_ROWS : Nat := 37

abbrev VTERM_BLACK : Nat := 0
abbrev VTERM_RED : Nat := 1
abbrev VTERM_WHITE : Nat := 7
abbrev VTERM_BRIGHT : Nat := 8

abbrev INPUT_QUEUE_SIZE : Nat := 64

/-- `VTERM_ATTR(fg, bg) = ((bg) << 4) | ((fg) & 0x0F)`. -/
def VTERM_ATTR (fg bg : Nat) : Nat := (bg <<< 4) ||| (fg &&& 15)

/-- `VTERM_ATTR_FG(attr) = (attr) & 0x0F`. -/
def VTERM_ATTR_FG (a : Nat) : Nat := a &&& 15

/-- `VTERM_ATTR_BG(attr) = ((attr) >> 4) & 0x0F`. -/
def VTERM_ATTR_BG (a : Nat) : Nat := (a >>> 4) &&& 15

/-- `VTERM_DEFAULT_ATTR = VTERM_ATTR(VTERM_WHITE, VTERM_BLACK)` (= 7). -/
def VTERM_DEFAULT_ATTR : Nat := VTERM_ATTR VTERM_WHITE VTERM_BLACK

/-- One screen cell: `struct { char ch; uint8_t attr; }`. -/
structure VtCell where
  ch : Nat
  attr : Nat
deriving DecidableEq

/-- A cell holding a space with the default attribute. -/
def blankVtCell : VtCell := ⟨32, VTERM_DEFAULT_ATTR⟩

/-!
### Per-terminal interpreter state

The fields of `vterm_t` that the byte interpreter reads or writes:
the cell grid (reached through the `cells` pointer), the cursor, the current
drawing attribute and the escape-parser state.  `escape_buf`/`escape_len`
are modelled as a single list holding the first `escape_len` stored bytes.
-/

structure Vt where
  cells : Int → VtCell
  cursor_x : Int
  cursor_y : Int
  current_attr : Nat
  escape_state : Nat
  escape_buf : List Nat

/-- Pointwise store to the cell grid (one `vterm_cell_t` assignment). -/
def writeCell (g : Int → VtCell) (i : Int) (cell : VtCell) : Int → VtCell :=
  fun j => if j = i then cell else g j

/-- The effect of `vterm_scroll` on the grid: `memmove` rows `1..ROWS-1`
down to rows `0..ROWS-2`, then clear the last row to space + default
attribute.  Indices outside `[0, ROWS*COLS)` are untouched. -/
def scrollG (g : Int → VtCell) : Int → VtCell := fun j =>
  if 0 ≤ j ∧ j < ((VTERM_ROWS : Int) - 1) * (VTERM_COLS : Int) then g (j + (VTERM_COLS : Int))
  else if ((VTERM_ROWS : Int) - 1) * (VTERM_COLS : Int) ≤ j ∧ j < (VTERM_ROWS : Int) * (VTERM_COLS : Int) then blankVtCell
  else g j

/-- `vterm_scroll`: shift the grid up one row, clear the last row, and park
the cursor row at `VTERM_ROWS - 1`. -/
def vterm_scroll (vt : Vt) : Vt :=
  { vt with cells := scrollG vt.cells, cursor_y := (VTERM_ROWS : Int) - 1 }

/-- The `do { ... } while` loop of the `'\t'` case of
`vterm_putchar_internal`: write spaces and advance until the next multiple
of 8 columns (or the end of the row). -/
def tabLoop (attr : Nat) (y : Int) (g : Int → VtCell) (x : Int) : (Int → VtCell) × Int :=
  let g' := writeCell g (y * (VTERM_COLS : Int) + x) ⟨32, attr⟩
  let x' := x + 1
  if x' < (VTERM_COLS : Int) ∧ x' % 8 ≠ 0 then tabLoop attr y g' x' else (g', x')
termination_by ((VTERM_COLS : Int) - x).toNat
decreasing_by omega

/-- `vterm_putchar_internal`: apply one byte to the grid as a control or
printable character (escape handling happens in the caller). -/
def vterm_putchar_internal (vt : Vt) (c : Nat) : Vt :=
  let cellIdx := vt.cursor_y * (VTERM_COLS : Int) + vt.cursor_x
  if c = 10 then
    let vt' := { vt with cursor_x := 0, cursor_y := vt.cursor_y + 1 }
    if (VTERM_ROWS : Int) ≤ vt'.cursor_y then vterm_scroll vt' else vt'
  else if c = 13 then
    { vt with cursor_x := 0 }
  else if c = 8 then
    if 0 < vt.cursor_x then
      { vt with cursor_x := vt.cursor_x - 1,
                cells := writeCell vt.cells (cellIdx - 1) ⟨32, vt.current_attr⟩ }
    else vt
  else if c = 9 then
    let r := tabLoop vt.current_attr vt.cursor_y vt.cells vt.cursor_x
    let vt' := { vt with cells := r.1, cursor_x := r.2 }
    if (VTERM_COLS : Int) ≤ vt'.cursor_x then
      let vt2 := { vt' with cursor_x := 0, cursor_y := vt'.cursor_y + 1 }
      if (VTERM_ROWS : Int) ≤ vt2.cursor_y then vterm_scroll vt2 else vt2
    else vt'
  else if 32 ≤ c ∧ c < 127 then
    let vt' := { vt with cells := writeCell vt.cells cellIdx ⟨c, vt.current_attr⟩,
                         cursor_x := vt.cursor_x + 1 }
    if (VTERM_COLS : Int) ≤ vt'.cursor_x then
      let vt2 := { vt' with cursor_x := 0, cursor_y := vt'.cursor_y + 1 }
      if (VTERM_ROWS : Int) ≤ vt2.cursor_y then vterm_scroll vt2 else vt2
    else vt'
  else vt

/-- `vterm_clear_internal`: every cell of the grid becomes space + default
attribute (the C code does this with an aligned 32-bit fill; the cell-level
effect is the same), cursor to the origin, attribute to the default. -/
def vterm_clear_internal (vt : Vt) : Vt :=
  { vt with
    cells := fun j =>
      if 0 ≤ j ∧ j < (VTERM_ROWS : Int) * (VTERM_COLS : Int) then blankVtCell else vt.cells j,
    cursor_x := 0, cursor_y := 0, current_attr := VTERM_DEFAULT_ATTR }

/-! ### SGR parsing (`sgr_parse_num`, `vterm_apply_sgr`) -/

/-- The `while ('0' <= **pp && **pp <= '9')` digit-accumulation loop shared
by `sgr_parse_num`, `atoi`, `sscanf("%d")` and the hotkey parsers. -/
def read_digits (acc : Nat) : List Nat → Nat × List Nat
  | [] => (acc, [])
  | c :: rest =>
    if 48 ≤ c ∧ c ≤ 57 then read_digits (acc * 10 + (c - 48)) rest else (acc, c :: rest)

/-- `sgr_parse_num`: parse a number (0 when no digits) and skip one
following `';'`. -/
def sgr_parse_num (p : List Nat) : Nat × List Nat :=
  let r := read_digits 0 p
  match r.2 with
  | 59 :: rest => (r.1, rest)
  | _ => r

/-- One iteration of the `while (*p)` body of `vterm_apply_sgr`: parse one
code and mutate the running `(attr, bright)` state.  Returns the new
attribute, new local `bright` flag, and remaining input. -/
def sgr_step (attr bright : Nat) (p : List Nat) : Nat × Nat × List Nat :=
  let r := sgr_parse_num p
  let num := r.1
  let p1 := r.2
  if 90 ≤ num ∧ num ≤ 97 then
    (VTERM_ATTR ((num - 90) ||| VTERM_BRIGHT) (VTERM_ATTR_BG attr), bright, p1)
  else if 30 ≤ num ∧ num ≤ 37 then
    (VTERM_ATTR ((num - 30) ||| bright) (VTERM_ATTR_BG attr), bright, p1)
  else if num = 0 then
    (VTERM_DEFAULT_ATTR, 0, p1)
  else if num = 1 then
    (VTERM_ATTR (VTERM_ATTR_FG attr ||| VTERM_BRIGHT) (VTERM_ATTR_BG attr), VTERM_BRIGHT, p1)
  else if num = 22 then
    (VTERM_ATTR (VTERM_ATTR_FG attr &&& 7) (VTERM_ATTR_BG attr), 0, p1)
  else if num = 38 then
    let m := sgr_parse_num p1
    let p2 := if m.1 = 5 then (sgr_parse_num m.2).2
      else if m.1 = 2 then (sgr_parse_num (sgr_parse_num (sgr_parse_num m.2).2).2).2
      else m.2
    (attr, bright, p2)
  else if num = 39 then
    (VTERM_ATTR VTERM_WHITE (VTERM_ATTR_BG attr), bright, p1)
  else if 40 ≤ num ∧ num ≤ 47 then
    (VTERM_ATTR (VTERM_ATTR_FG attr) (num - 40), bright, p1)
  else if num = 48 then
    let m := sgr_parse_num p1
    let p2 := if m.1 = 5 then (sgr_parse_num m.2).2
      else if m.1 = 2 then (sgr_parse_num (sgr_parse_num (sgr_parse_num m.2).2).2).2
      else m.2
    (attr, bright, p2)
  else if num = 49 then
    (VTERM_ATTR (VTERM_ATTR_FG attr) VTERM_BLACK, bright, p1)
  else if 100 ≤ num ∧ num ≤ 107 then
    (VTERM_ATTR (VTERM_ATTR_FG attr) ((num - 100) ||| VTERM_BRIGHT), bright, p1)
  else
    (attr, bright, p1)

/-- The `while (*p)` loop of `vterm_apply_sgr`.  The loop consumes at least
one byte per iteration on every input the interpreter can produce except a
parameter byte that is neither a digit nor `';'` (on which the C loop would
spin forever re-applying code 0); the fuel argument, instantiated with
`length + 1`, makes the model total while agreeing with the C loop on all
terminating inputs. -/
def sgr_loop : Nat → Nat → Nat → List Nat → Nat
  | _, attr, _, [] => attr
  | 0, attr, _, _ => attr
  | fuel + 1, attr, bright, p =>
    let r := sgr_step attr bright p
    sgr_loop fuel r.1 r.2.1 r.2.2

/-- `vterm_apply_sgr`: the leading empty/`"0"`/`"0;"` reset special case,
then the code loop (with the per-call local `bright` starting at 0).
Byte 48 is `'0'`, byte 59 is `';'`. -/
def vterm_apply_sgr (attr : Nat) (params : List Nat) : Nat :=
  match params with
  | [] => VTERM_DEFAULT_ATTR
  | 48 :: [] => VTERM_DEFAULT_ATTR
  | 48 :: 59 :: rest => sgr_loop (rest.length + 1) VTERM_DEFAULT_ATTR 0 rest
  | _ => sgr_loop (params.length + 1) attr 0 params

/-! ### `sscanf("%d;%d")` / `atoi` models -/

/-- Leading-whitespace skip performed by `%d` / `atoi`. -/
def skip_ws : List Nat → List Nat
  | [] => []
  | c :: rest => if c = 32 ∨ (9 ≤ c ∧ c ≤ 13) then skip_ws rest else c :: rest

/-- Parse one decimal integer with optional sign (the conversion performed
by `%d` and `atoi`); `none` on matching failure (no digits). -/
def read_int_go : List Nat → Option (Int × List Nat)
  | [] => none
  | c :: rest =>
    if c = 45 ∨ c = 43 then
      match rest with
      | [] => none
      | d :: _ =>
        if 48 ≤ d ∧ d ≤ 57 then
          let r := read_digits 0 rest
          some (if c = 45 then -(r.1 : Int) else (r.1 : Int), r.2)
        else none
    else if 48 ≤ c ∧ c ≤ 57 then
      let r := read_digits 0 (c :: rest)
      some ((r.1 : Int), r.2)
    else none

/-- Parse one decimal integer with optional sign after skipping leading
whitespace (the conversion performed by `%d` and `atoi`); `none` on
matching failure (no digits). -/
def read_int (p : List Nat) : Option (Int × List Nat) :=
  read_int_go (skip_ws p)

/-- `atoi`: 0 on matching failure. -/
def atoi (p : List Nat) : Int :=
  ((read_int p).map Prod.fst).getD 0

/-- The `";%d"` tail of `sscanf("%d;%d")`: the second conversion runs only
after a literal `';'` match, and `col` keeps its initial 1 when it fails. -/
def scan_second (row : Int) (rest : List Nat) : Int × Int :=
  if rest.headD 0 = 59 then (row, ((read_int rest.tail).map Prod.fst).getD 1)
  else (row, 1)

/-- `sscanf(buf, "%d;%d", &row, &col)` with `row`/`col` initialised to 1:
a variable keeps its old value from the first failing conversion on. -/
def scan_row_col (p : List Nat) : Int × Int :=
  ((read_int p).map (fun rr => scan_second rr.1 rr.2)).getD (1, 1)

/-- Decimal digit bytes of a natural number, most significant first
(the rendering `snprintf("%d")` produces for nonnegative values).  The
recursion is on `n / 10`; the structural `fuel` argument (any bound with
`n < fuel`, instantiated with `n + 1`) only makes the recursion
kernel-reducible. -/
def decimal_bytes_go (fuel : Nat) (n : Nat) : List Nat :=
  match fuel with
  | 0 => []
  | fuel + 1 =>
    if n < 10 then [48 + n] else decimal_bytes_go fuel (n / 10) ++ [48 + n % 10]

def decimal_bytes_nat (n : Nat) : List Nat := decimal_bytes_go (n + 1) n

/-- `snprintf("%d")` of an `int`. -/
def decimal_bytes (i : Int) : List Nat :=
  if i < 0 then 45 :: decimal_bytes_nat (-i).toNat else decimal_bytes_nat i.toNat

/-- The `ESC [ row ; col R` cursor-position report synthesised by the
`'n'` (DSR) case. -/
def dsr_response (row col : Int) : List Nat :=
  [27, 91] ++ decimal_bytes row ++ [59] ++ decimal_bytes col ++ [82]

/-! ### CSI operations with a loop body (`K`, `X`, `L`, `M`, `ESC M`) -/

/-- CSI `K` (erase in line): mode 0 = cursor to end, 1 = start to cursor
inclusive, other = whole line; erased cells get space + current attribute. -/
def csi_erase_line (vt : Vt) (mode : Int) : Vt :=
  let start : Int := if mode = 0 then vt.cursor_x else 0
  let stop : Int := if mode = 1 then vt.cursor_x + 1 else (VTERM_COLS : Int)
  let rowBase := vt.cursor_y * (VTERM_COLS : Int)
  { vt with cells := fun j =>
      if rowBase + start ≤ j ∧ j < rowBase + stop then ⟨32, vt.current_attr⟩ else vt.cells j }

/-- CSI `X` (erase N characters from the cursor, clamped to the row end). -/
def csi_erase_chars (vt : Vt) (n0 : Int) : Vt :=
  let n := if n0 < 1 then 1 else n0
  let stop := if (VTERM_COLS : Int) < vt.cursor_x + n then (VTERM_COLS : Int) else vt.cursor_x + n
  let rowBase := vt.cursor_y * (VTERM_COLS : Int)
  { vt with cells := fun j =>
      if rowBase + vt.cursor_x ≤ j ∧ j < rowBase + stop then ⟨32, vt.current_attr⟩ else vt.cells j }

/-- CSI `L` (insert N blank lines at the cursor row): `memmove` the rows
below down by `n`, then clear the `n` rows at the cursor to space +
default attribute. -/
def csi_insert_lines (vt : Vt) (n0 : Int) : Vt :=
  let n1 := if n0 < 1 then 1 else n0
  let n := if (VTERM_ROWS : Int) - vt.cursor_y < n1 then (VTERM_ROWS : Int) - vt.cursor_y else n1
  let base := vt.cursor_y * (VTERM_COLS : Int)
  let moveCount := ((VTERM_ROWS : Int) - vt.cursor_y - n) * (VTERM_COLS : Int)
  { vt with cells := fun j =>
      if base ≤ j ∧ j < base + n * (VTERM_COLS : Int) then blankVtCell
      else if 0 < moveCount ∧ base + n * (VTERM_COLS : Int) ≤ j ∧
          j < base + n * (VTERM_COLS : Int) + moveCount then
        vt.cells (j - n * (VTERM_COLS : Int))
      else vt.cells j }

/-- CSI `M` (delete N lines at the cursor row): `memmove` the rows below up
by `n`, then clear the vacated `n` rows at the bottom. -/
def csi_delete_lines (vt : Vt) (n0 : Int) : Vt :=
  let n1 := if n0 < 1 then 1 else n0
  let n := if (VTERM_ROWS : Int) - vt.cursor_y < n1 then (VTERM_ROWS : Int) - vt.cursor_y else n1
  let base := vt.cursor_y * (VTERM_COLS : Int)
  let moveCount := ((VTERM_ROWS : Int) - vt.cursor_y - n) * (VTERM_COLS : Int)
  { vt with cells := fun j =>
      if 0 < moveCount ∧ base ≤ j ∧ j < base + moveCount then vt.cells (j + n * (VTERM_COLS : Int))
      else if ((VTERM_ROWS : Int) - n) * (VTERM_COLS : Int) ≤ j ∧
          j < (VTERM_ROWS : Int) * (VTERM_COLS : Int) then blankVtCell
      else vt.cells j }

/-- `ESC M` (reverse index) at the top row: `memmove` all rows down by one
and clear the top row. -/
def reverse_scroll_cells (g : Int → VtCell) : Int → VtCell := fun j =>
  if (VTERM_COLS : Int) ≤ j ∧ j < (VTERM_ROWS : Int) * (VTERM_COLS : Int) then g (j - (VTERM_COLS : Int))
  else if 0 ≤ j ∧ j < (VTERM_COLS : Int) then blankVtCell
  else g j

/-! ### `vterm_handle_escape` -/

/-- Result of one `vterm_handle_escape` call: the return value, the new
terminal state, and the bytes pushed into the active session's input queue
by `vterm_send_input` (only the `'n'` DSR case emits). -/
structure EscResult where
  consumed : Bool
  vt : Vt
  emitted : List Nat

/-- The default count argument of the cursor-movement cases:
`int n = 1; if (escape_buf[0]) n = atoi(escape_buf); if (n < 1) n = 1;`. -/
def csi_count (params : List Nat) : Int :=
  let n0 := if params ≠ [] then atoi params else 1
  if n0 < 1 then 1 else n0

/-- CSI `H`/`f` (cursor position): fast path for home, otherwise
`sscanf("%d;%d")` with 1-based coordinates clamped into the grid. -/
def csi_cursor_pos (vt : Vt) (params : List Nat) : Vt :=
  if params = [] ∨ params = [49, 59, 49] then
    { vt with cursor_x := 0, cursor_y := 0 }
  else
    let rc := scan_row_col params
    let cy0 : Int := if 0 < rc.1 then rc.1 - 1 else 0
    let cx0 : Int := if 0 < rc.2 then rc.2 - 1 else 0
    let cy := if (VTERM_ROWS : Int) ≤ cy0 then (VTERM_ROWS : Int) - 1 else cy0
    let cx := if (VTERM_COLS : Int) ≤ cx0 then (VTERM_COLS : Int) - 1 else cx0
    { vt with cursor_x := cx, cursor_y := cy }

/-- CSI `A` (cursor up by N, clamped at the top). -/
def csi_cursor_up (vt : Vt) (params : List Nat) : Vt :=
  let cy := vt.cursor_y - csi_count params
  { vt with cursor_y := if cy < 0 then 0 else cy }

/-- CSI `B` (cursor down by N, clamped at the bottom). -/
def csi_cursor_down (vt : Vt) (params : List Nat) : Vt :=
  let cy := vt.cursor_y + csi_count params
  { vt with cursor_y := if (VTERM_ROWS : Int) ≤ cy then (VTERM_ROWS : Int) - 1 else cy }

/-- CSI `C` (cursor right by N, clamped at the last column). -/
def csi_cursor_right (vt : Vt) (params : List Nat) : Vt :=
  let cx := vt.cursor_x + csi_count params
  { vt with cursor_x := if (VTERM_COLS : Int) ≤ cx then (VTERM_COLS : Int) - 1 else cx }

/-- CSI `D` (cursor left by N, clamped at the first column). -/
def csi_cursor_left (vt : Vt) (params : List Nat) : Vt :=
  let cx := vt.cursor_x - csi_count params
  { vt with cursor_x := if cx < 0 then 0 else cx }

/-- The `switch (c)` dispatch on a CSI final byte, acting on the state and
the accumulated parameter bytes.  Byte values: `'m'`=109, `'J'`=74,
`'H'`=72, `'f'`=102, `'A'..'D'`=65..68, `'K'`=75, `'X'`=88, `'L'`=76,
`'M'`=77, `'n'`=110, `'?'`=63, `'0'`..`'9'`=48..57, `';'`=59, `'6'`=54. -/
def vterm_csi_dispatch (vt : Vt) (params : List Nat) (c : Nat) : Vt × List Nat :=
  if params.headD 0 = 63 then (vt, [])
  else
    if c = 109 then
      ({ vt with current_attr := vterm_apply_sgr vt.current_attr params }, [])
    else if c = 74 then
      if params = [50] ∨ params = [] then (vterm_clear_internal vt, []) else (vt, [])
    else if c = 72 ∨ c = 102 then (csi_cursor_pos vt params, [])
    else if c = 65 then (csi_cursor_up vt params, [])
    else if c = 66 then (csi_cursor_down vt params, [])
    else if c = 67 then (csi_cursor_right vt params, [])
    else if c = 68 then (csi_cursor_left vt params, [])
    else if c = 75 then
      let mode := if params ≠ [] then atoi params else 0
      (csi_erase_line vt mode, [])
    else if c = 88 then (csi_erase_chars vt (if params ≠ [] then atoi params else 1), [])
    else if c = 76 then (csi_insert_lines vt (if params ≠ [] then atoi params else 1), [])
    else if c = 77 then (csi_delete_lines vt (if params ≠ [] then atoi params else 1), [])
    else if c = 110 then
      if params = [54] then (vt, dsr_response (vt.cursor_y + 1) (vt.cursor_x + 1)) else (vt, [])
    else (vt, [])

/-- `vterm_handle_escape`: the escape-parser state machine.  Returns
whether the byte was consumed.  Byte values: `ESC`=27, `'['`=91, `'D'`=68,
`'M'`=77, `'E'`=69; CSI final bytes are `A..Z`/`a..z` (65..90/97..122);
the parameter buffer holds at most 31 bytes, and the stored final byte is
stripped before parsing (`escape_buf[escape_len-1] = '\0'`). -/
def vterm_handle_escape (vt : Vt) (c : Nat) : EscResult :=
  if vt.escape_state = 0 then
    if c = 27 then ⟨true, { vt with escape_state := 1, escape_buf := [] }, []⟩
    else ⟨false, vt, []⟩
  else if vt.escape_state = 1 then
    if c = 91 then ⟨true, { vt with escape_state := 2 }, []⟩
    else if c = 68 then
      let vt' := if (VTERM_ROWS : Int) - 1 ≤ vt.cursor_y then vterm_scroll vt
        else { vt with cursor_y := vt.cursor_y + 1 }
      ⟨true, { vt' with escape_state := 0 }, []⟩
    else if c = 77 then
      let vt' := if vt.cursor_y ≤ 0 then { vt with cells := reverse_scroll_cells vt.cells }
        else { vt with cursor_y := vt.cursor_y - 1 }
      ⟨true, { vt' with escape_state := 0 }, []⟩
    else if c = 69 then
      let vt0 := { vt with cursor_x := 0 }
      let vt' := if (VTERM_ROWS : Int) - 1 ≤ vt0.cursor_y then vterm_scroll vt0
        else { vt0 with cursor_y := vt0.cursor_y + 1 }
      ⟨true, { vt' with escape_state := 0 }, []⟩
    else ⟨false, { vt with escape_state := 0 }, []⟩
  else
    let buf := if vt.escape_buf.length < 31 then vt.escape_buf ++ [c] else vt.escape_buf
    if (65 ≤ c ∧ c ≤ 90) ∨ (97 ≤ c ∧ c ≤ 122) then
      let r := vterm_csi_dispatch vt buf.dropLast c
      ⟨true, { r.1 with escape_state := 0, escape_buf := [] }, r.2⟩
    else
      ⟨true, { vt with escape_buf := buf }, []⟩

/-! ### `vterm_putchar` / `vterm_write` (interpreter level) -/

/-- The body of `vterm_putchar` (inside the session mutex): escape handling
first, then `vterm_putchar_internal` for unconsumed bytes. -/
def vterm_putchar1 (vt : Vt) (c : Nat) : Vt × List Nat :=
  let r := vterm_handle_escape vt c
  (if r.consumed then r.vt else vterm_putchar_internal r.vt c, r.emitted)

/-- Byte-at-a-time processing: `vterm_putchar` applied to each byte in
order, concatenating the emitted DSR bytes. -/
def vterm_putchar_many (vt : Vt) : List Nat → Vt × List Nat
  | [] => (vt, [])
  | c :: rest =>
    let r := vterm_putchar1 vt c
    let r2 := vterm_putchar_many r.1 rest
    (r2.1, r.2 ++ r2.2)

/-- The local variables of the batched `vterm_write` loop: the cached
cursor/attribute/escape state and the `cursor_ptr`/`row_end` cell
pointers (as indices into the grid). -/
structure WriteLocals where
  cx : Int
  cy : Int
  attr : Nat
  escMode : Nat
  cursorPtr : Int
  rowEnd : Int

/-- The `while (p < end)` loop of `vterm_write`: fast path for printable
bytes using the cached locals, slow path that writes the cached state back
into the session, runs the escape machine / `vterm_putchar_internal`, and
re-derives the cache. -/
def vterm_write_go (vt : Vt) (l : WriteLocals) (data : List Nat) (out : List Nat) :
    Vt × List Nat :=
  match data with
  | [] =>
    ({ vt with cursor_x := l.cx, cursor_y := l.cy, current_attr := l.attr,
               escape_state := l.escMode }, out)
  | c :: rest =>
    if l.escMode = 0 ∧ 32 ≤ c ∧ c < 127 then
      let vt' := { vt with cells := writeCell vt.cells l.cursorPtr ⟨c, l.attr⟩ }
      let ptr := l.cursorPtr + 1
      let cx := l.cx + 1
      if l.rowEnd ≤ ptr then
        let cy := l.cy + 1
        if (VTERM_ROWS : Int) ≤ cy then
          let vt2 := vterm_scroll { vt' with cursor_x := 0, cursor_y := cy }
          let cy2 := vt2.cursor_y
          vterm_write_go vt2
            { cx := 0, cy := cy2, attr := l.attr, escMode := l.escMode,
              cursorPtr := cy2 * (VTERM_COLS : Int),
              rowEnd := cy2 * (VTERM_COLS : Int) + (VTERM_COLS : Int) } rest out
        else
          vterm_write_go vt'
            { l with cx := 0, cy := cy, cursorPtr := ptr,
                     rowEnd := l.rowEnd + (VTERM_COLS : Int) } rest out
      else
        vterm_write_go vt' { l with cx := cx, cursorPtr := ptr } rest out
    else
      let vtSync := { vt with cursor_x := l.cx, cursor_y := l.cy, current_attr := l.attr,
                              escape_state := l.escMode }
      let r := vterm_handle_escape vtSync c
      let vt2 := if r.consumed then r.vt else vterm_putchar_internal r.vt c
      if vt2.cursor_x ≠ l.cx ∨ vt2.cursor_y ≠ l.cy then
        vterm_write_go vt2
          { cx := vt2.cursor_x, cy := vt2.cursor_y, attr := vt2.current_attr,
            escMode := vt2.escape_state,
            cursorPtr := vt2.cursor_y * (VTERM_COLS : Int) + vt2.cursor_x,
            rowEnd := vt2.cursor_y * (VTERM_COLS : Int) + (VTERM_COLS : Int) }
          rest (out ++ r.emitted)
      else
        vterm_write_go vt2 { l with attr := vt2.current_attr, escMode := vt2.escape_state }
          rest (out ++ r.emitted)

/-- The body of `vterm_write` (inside the session mutex): cache the session
state in locals, run the batched loop, write the final state back. -/
def vterm_write1 (vt : Vt) (data : List Nat) : Vt × List Nat :=
  vterm_write_go vt
    { cx := vt.cursor_x, cy := vt.cursor_y, attr := vt.current_attr,
      escMode := vt.escape_state,
      cursorPtr := vt.cursor_y * (VTERM_COLS : Int) + vt.cursor_x,
      rowEnd := vt.cursor_y * (VTERM_COLS : Int) + (VTERM_COLS : Int) } data []

/-! ### System level: session pool, fast-memory buffer, queues, hotkeys -/

/-- One `vterm_t`: the PSRAM backing store, the interpreter fields, the
`dirty` flag and the input queue.  The `cells` pointer is not stored: a
session's grid lives in the shared fast buffer exactly when it is the
active session (`vterm_init` / `vterm_switch` maintain this aliasing), so
the model derives the grid from the active index (`cellsOf`). -/
structure Session where
  storage : Int → VtCell
  cursor_x : Int
  cursor_y : Int
  current_attr : Nat
  escape_state : Nat
  escape_buf : List Nat
  dirty : Bool
  input_queue : List Nat

/-- The global state of `vterm.c`: the session array, the shared IRAM cell
buffer, the active index, the hotkey-detector scratch state, and event
logs recording the invocations of the registered switch and render
callbacks. -/
structure Sys where
  vterms : Fin VTERM_COUNT → Session
  s_iram_buffer : Int → VtCell
  s_active_vt : Fin VTERM_COUNT
  s_esc_buf : List Nat
  s_esc_start : Nat
  switch_events : List Nat
  render_events : List Nat

/-- The grid a session's `cells` pointer addresses: the IRAM buffer for the
active session, its own backing store otherwise. -/
def cellsOf (s : Sys) (i : Fin VTERM_COUNT) : Int → VtCell :=
  if i = s.s_active_vt then s.s_iram_buffer else (s.vterms i).storage

/-- The interpreter view of session `i`. -/
def sessionVt (s : Sys) (i : Fin VTERM_COUNT) : Vt :=
  { cells := cellsOf s i,
    cursor_x := (s.vterms i).cursor_x,
    cursor_y := (s.vterms i).cursor_y,
    current_attr := (s.vterms i).current_attr,
    escape_state := (s.vterms i).escape_state,
    escape_buf := (s.vterms i).escape_buf }

/-- Write an interpreter result back into session `i` (grid through the
`cells` pointer, fields into the struct), with the new `dirty` value. -/
def putVt (s : Sys) (i : Fin VTERM_COUNT) (vt : Vt) (d : Bool) : Sys :=
  let sess := s.vterms i
  let sess' : Session :=
    { storage := if i = s.s_active_vt then sess.storage else vt.cells,
      cursor_x := vt.cursor_x, cursor_y := vt.cursor_y,
      current_attr := vt.current_attr, escape_state := vt.escape_state,
      escape_buf := vt.escape_buf, dirty := d, input_queue := sess.input_queue }
  { s with vterms := Function.update s.vterms i sess',
           s_iram_buffer := if i = s.s_active_vt then vt.cells else s.s_iram_buffer }

/-- A checked `vt_id` as an index: every use is guarded by a bounds check
under which `vt_id.toNat % VTERM_COUNT = vt_id.toNat`, so the `%` only
packages the proof. -/
def vtIndex (vt_id : Int) : Fin VTERM_COUNT :=
  ⟨vt_id.toNat % VTERM_COUNT, Nat.mod_lt _ (by decide)⟩

/-- `vterm_send_input`: bounds-check the index, then `xQueueSend` with
timeout 0 — the byte is appended if the queue has room and dropped
otherwise. -/
def vterm_send_input (s : Sys) (vt_id : Int) (c : Nat) : Sys :=
  if _h : 0 ≤ vt_id ∧ vt_id < (VTERM_COUNT : Int) then
    let i : Fin VTERM_COUNT := vtIndex vt_id
    let sess := s.vterms i
    let sess' := { sess with input_queue :=
      if sess.input_queue.length < INPUT_QUEUE_SIZE then sess.input_queue ++ [c]
      else sess.input_queue }
    { s with vterms := Function.update s.vterms i sess' }
  else s

/-- `memcpy(dst, src, BUFFER_SIZE_BYTES)` on cell buffers: exactly the
`VTERM_ROWS*VTERM_COLS` cells are copied, the rest of `dst` is untouched. -/
def copy_cells (dst src : Int → VtCell) : Int → VtCell := fun k =>
  if 0 ≤ k ∧ k < (VTERM_ROWS : Int) * (VTERM_COLS : Int) then src k else dst k

/-- `vterm_switch`: no-op on an out-of-range or already-active index;
otherwise copy the IRAM buffer into the outgoing session's backing store,
copy the incoming session's backing store into IRAM, update the active
index, and invoke the switch callback (recorded in `switch_events`). -/
def vterm_switch (s : Sys) (vt_id : Int) : Sys :=
  if _h1 : vt_id < 0 ∨ (VTERM_COUNT : Int) ≤ vt_id then s
  else if _h2 : vt_id = (s.s_active_vt.val : Int) then s
  else
    let j : Fin VTERM_COUNT := vtIndex vt_id
    let old := s.s_active_vt
    let oldSess := s.vterms old
    let savedOld := { oldSess with storage := copy_cells oldSess.storage s.s_iram_buffer }
    { s with
      vterms := Function.update s.vterms old savedOld,
      s_iram_buffer := copy_cells s.s_iram_buffer (s.vterms j).storage,
      s_active_vt := j,
      switch_events := s.switch_events ++ [j.val] }

/-- `vterm_putchar`: bounds check, run the escape machine / character
writer under the session mutex, set `dirty`, and route any DSR response
bytes to the active session's queue. -/
def vterm_putchar (s : Sys) (vt_id : Int) (c : Nat) : Sys :=
  if _h : 0 ≤ vt_id ∧ vt_id < (VTERM_COUNT : Int) then
    let i : Fin VTERM_COUNT := vtIndex vt_id
    let r := vterm_putchar1 (sessionVt s i) c
    let s1 := putVt s i r.1 true
    r.2.foldl (fun st b => vterm_send_input st (st.s_active_vt.val : Int) b) s1
  else s

/-- `vterm_write`: bounds check, run the batched write loop under the
session mutex, set `dirty`, and route any DSR response bytes to the active
session's queue. -/
def vterm_write (s : Sys) (vt_id : Int) (data : List Nat) : Sys :=
  if _h : 0 ≤ vt_id ∧ vt_id < (VTERM_COUNT : Int) then
    let i : Fin VTERM_COUNT := vtIndex vt_id
    let r := vterm_write1 (sessionVt s i) data
    let s1 := putVt s i r.1 true
    r.2.foldl (fun st b => vterm_send_input st (st.s_active_vt.val : Int) b) s1
  else s

/-- `vterm_clear`: bounds check and `vterm_clear_internal` under the
session mutex (the `dirty` flag is not touched). -/
def vterm_clear (s : Sys) (vt_id : Int) : Sys :=
  if _h : 0 ≤ vt_id ∧ vt_id < (VTERM_COUNT : Int) then
    let i : Fin VTERM_COUNT := vtIndex vt_id
    putVt s i (vterm_clear_internal (sessionVt s i)) (s.vterms i).dirty
  else s

/-! ### Hotkey detection (`match_vt_hotkey`, `could_be_hotkey`,
`flush_input_buffer`, `vterm_input_feed`) -/

/-- `match_vt_hotkey`: match the buffered bytes against every recognised
switch encoding, returning the target VT or -1.  Byte values: `ESC`=27,
`'O'`=79, `'['`=91, `'P'..'S'`=80..83, `'5'`=53, `'1'`=49, `';'`=59,
`'~'`=126, `'u'`=117.  (In the `'~'` branch the C code parses and discards
an optional `;modifier` suffix; it does not affect the result.) -/
def match_vt_hotkey (buf : List Nat) : Int :=
  let len := buf.length
  if len < 2 then -1
  else if buf.getD 0 0 ≠ 27 then -1
  else
    let rO : Int :=
      if 3 ≤ len ∧ buf.getD 1 0 = 79 then
        let c := buf.getD 2 0
        if c = 80 then 0 else if c = 81 then 1 else if c = 82 then 2 else if c = 83 then 3
        else if 4 ≤ len ∧ c = 53 then
          let d := buf.getD 3 0
          if d = 80 then 0 else if d = 81 then 1 else if d = 82 then 2
          else if d = 83 then 3 else -1
        else -1
      else -1
    if rO ≠ -1 then rO
    else if 3 ≤ len ∧ buf.getD 1 0 = 91 then
      let rCtrlF : Int :=
        if len = 6 ∧ buf.getD 2 0 = 49 ∧ buf.getD 3 0 = 59 ∧ buf.getD 4 0 = 53 then
          let c := buf.getD 5 0
          if c = 80 then 0 else if c = 81 then 1 else if c = 82 then 2
          else if c = 83 then 3 else -1
        else -1
      if rCtrlF ≠ -1 then rCtrlF
      else
        let rTilde : Int :=
          if buf.getD (len - 1) 0 = 126 then
            let d := read_digits 0 (buf.drop 2)
            if 11 ≤ d.1 ∧ d.1 ≤ 14 then (d.1 : Int) - 11 else -1
          else -1
        if rTilde ≠ -1 then rTilde
        else if buf.getD (len - 1) 0 = 117 then
          let d := read_digits 0 (buf.drop 2)
          let m : Nat :=
            match d.2 with
            | 59 :: rest2 => (read_digits 0 rest2).1
            | _ => 0
          if m = 5 ∧ 49 ≤ d.1 ∧ d.1 ≤ 52 then (d.1 : Int) - 49 else -1
        else -1
    else -1

/-- `could_be_hotkey`: whether the buffered bytes are still a viable prefix
of some hotkey encoding (bounded to 10 bytes; a terminating byte `'~'`,
`'u'` or an uppercase letter means the sequence is complete and should
have matched already). -/
def could_be_hotkey (buf : List Nat) : Bool :=
  let len := buf.length
  if len = 0 then false
  else if buf.getD 0 0 ≠ 27 then false
  else if len = 1 then true
  else
    let c1 := buf.getD 1 0
    if c1 = 79 ∨ c1 = 91 then
      if 10 < len then false
      else if 3 ≤ len then
        let last := buf.getD (len - 1) 0
        if last = 126 ∨ last = 117 ∨ (65 ≤ last ∧ last ≤ 90) ∨
            (c1 = 79 ∧ 3 ≤ len ∧ 80 ≤ last ∧ last ≤ 83) then false
        else true
      else true
    else false

/-- `flush_input_buffer`: deliver the buffered bytes, in order, to the
active session's input queue, then empty the buffer. -/
def flush_input_buffer (s : Sys) : Sys :=
  let s' := s.s_esc_buf.foldl (fun st b => vterm_send_input st (st.s_active_vt.val : Int) b) s
  { s' with s_esc_buf := [] }

/-- `vterm_input_feed` at tick `t` with `T = pdMS_TO_TICKS(20)`: flush a
stale buffer first, start buffering on `ESC`, append (capacity 15) and try
to match while buffering, and pass other bytes straight through.  Returns
1 exactly when the byte completed a hotkey. -/
def vterm_input_feed_body (T t : Nat) (s : Sys) (c : Nat) : Sys × Int :=
  if s.s_esc_buf.length = 0 ∧ c = 27 then
    ({ s with s_esc_buf := [27], s_esc_start := t }, 0)
  else if 0 < s.s_esc_buf.length then
    let s := if s.s_esc_buf.length < 15 then { s with s_esc_buf := s.s_esc_buf ++ [c] } else s
    let vt := match_vt_hotkey s.s_esc_buf
    if 0 ≤ vt then
      (vterm_switch { s with s_esc_buf := [] } vt, 1)
    else if could_be_hotkey s.s_esc_buf then (s, 0)
    else (flush_input_buffer s, 0)
  else
    (vterm_send_input s (s.s_active_vt.val : Int) c, 0)

def vterm_input_feed (T t : Nat) (s : Sys) (c : Nat) : Sys × Int :=
  vterm_input_feed_body T t
    (if 0 < s.s_esc_buf.length ∧ T < t - s.s_esc_start then flush_input_buffer s else s) c

/-- Feed a list of bytes one at a time (all at tick `t`), collecting the
return values. -/
def feed_list (T t : Nat) (s : Sys) (bytes : List Nat) : Sys × List Int :=
  bytes.foldl (fun acc c =>
    let r := vterm_input_feed T t acc.1 c
    (r.1, acc.2 ++ [r.2])) (s, [])

/-! ### Basic facts about the interpreter operations -/

theorem vterm_scroll_cursor_x (vt : Vt) : (vterm_scroll vt).cursor_x = vt.cursor_x := rfl

theorem vterm_scroll_cursor_y (vt : Vt) :
    (vterm_scroll vt).cursor_y = (VTERM_ROWS : Int) - 1 := rfl

theorem vterm_scroll_attr (vt : Vt) : (vterm_scroll vt).current_attr = vt.current_attr := rfl

theorem vterm_scroll_escape_state (vt : Vt) :
    (vterm_scroll vt).escape_state = vt.escape_state := rfl

theorem vterm_scroll_escape_buf (vt : Vt) :
    (vterm_scroll vt).escape_buf = vt.escape_buf := rfl

theorem vterm_scroll_cells (vt : Vt) : (vterm_scroll vt).cells = scrollG vt.cells := rfl

/-- The tab loop advances the column by at least one. -/
theorem tabLoop_ge (attr : Nat) (y : Int) :
    ∀ (fuel : Nat) (g : Int → VtCell) (x : Int), ((VTERM_COLS : Int) - x).toNat ≤ fuel →
      x + 1 ≤ (tabLoop attr y g x).2 := by
  intro fuel
  induction fuel with
  | zero =>
    intro g x hf
    rw [tabLoop]
    split
    · rename_i hcond
      simp only [VTERM_COLS] at hf hcond
      omega
    · simp
  | succ n ih =>
    intro g x hf
    rw [tabLoop]
    split
    · rename_i hcond
      have h2 := ih (writeCell g (y * (VTERM_COLS : Int) + x) ⟨32, attr⟩) (x + 1)
        (by simp only [VTERM_COLS] at hf hcond ⊢; omega)
      omega
    · simp

/-- The tab loop never advances the column past `VTERM_COLS`, provided it
starts inside the row. -/
theorem tabLoop_le (attr : Nat) (y : Int) :
    ∀ (fuel : Nat) (g : Int → VtCell) (x : Int), ((VTERM_COLS : Int) - x).toNat ≤ fuel →
      x < (VTERM_COLS : Int) → (tabLoop attr y g x).2 ≤ (VTERM_COLS : Int) := by
  intro fuel
  induction fuel with
  | zero =>
    intro g x hf hx
    rw [tabLoop]
    split
    · rename_i hcond
      simp only [VTERM_COLS] at hf hcond
      omega
    · simp only [VTERM_COLS] at hx ⊢
      simp
      omega
  | succ n ih =>
    intro g x hf hx
    rw [tabLoop]
    split
    · rename_i hcond
      exact ih (writeCell g (y * (VTERM_COLS : Int) + x) ⟨32, attr⟩) (x + 1)
        (by simp only [VTERM_COLS] at hf hcond ⊢; omega)
        (by simp only [VTERM_COLS] at hcond ⊢; omega)
    · simp only [VTERM_COLS] at hx ⊢
      simp
      omega

theorem csi_erase_line_cursor (vt : Vt) (mode : Int) :
    (csi_erase_line vt mode).cursor_x = vt.cursor_x ∧
    (csi_erase_line vt mode).cursor_y = vt.cursor_y := ⟨rfl, rfl⟩

theorem csi_erase_chars_cursor (vt : Vt) (n : Int) :
    (csi_erase_chars vt n).cursor_x = vt.cursor_x ∧
    (csi_erase_chars vt n).cursor_y = vt.cursor_y := ⟨rfl, rfl⟩

theorem csi_insert_lines_cursor (vt : Vt) (n : Int) :
    (csi_insert_lines vt n).cursor_x = vt.cursor_x ∧
    (csi_insert_lines vt n).cursor_y = vt.cursor_y := ⟨rfl, rfl⟩

theorem csi_delete_lines_cursor (vt : Vt) (n : Int) :
    (csi_delete_lines vt n).cursor_x = vt.cursor_x ∧
    (csi_delete_lines vt n).cursor_y = vt.cursor_y := ⟨rfl, rfl⟩

/-- `vterm_putchar_internal` keeps the column inside the grid. -/
theorem vterm_putchar_internal_x (vt : Vt) (c : Nat) (h : vt.cursor_x < (VTERM_COLS : Int)) :
    (vterm_putchar_internal vt c).cursor_x < (VTERM_COLS : Int) := by
  unfold vterm_putchar_internal
  simp only [vterm_scroll, apply_ite Vt.cursor_x, VTERM_COLS] at *
  split_ifs <;> omega

/-- The count argument is always at least 1. -/
theorem csi_count_pos (params : List Nat) : 1 ≤ csi_count params := by
  simp only [csi_count]
  split_ifs <;> omega

theorem csi_cursor_pos_x (vt : Vt) (params : List Nat) :
    (csi_cursor_pos vt params).cursor_x < (VTERM_COLS : Int) := by
  unfold csi_cursor_pos
  simp only [apply_ite Vt.cursor_x, VTERM_COLS]
  split_ifs <;> simp <;> omega

theorem csi_cursor_pos_y (vt : Vt) (params : List Nat) :
    (csi_cursor_pos vt params).cursor_y < (VTERM_ROWS : Int) := by
  unfold csi_cursor_pos
  simp only [apply_ite Vt.cursor_y, VTERM_ROWS]
  split_ifs <;> simp <;> omega

theorem csi_cursor_pos_nonneg (vt : Vt) (params : List Nat) :
    0 ≤ (csi_cursor_pos vt params).cursor_x ∧ 0 ≤ (csi_cursor_pos vt params).cursor_y := by
  unfold csi_cursor_pos
  simp only [apply_ite Vt.cursor_x, apply_ite Vt.cursor_y, VTERM_ROWS, VTERM_COLS]
  split_ifs <;> simp_all <;> omega

theorem csi_cursor_right_x (vt : Vt) (params : List Nat) :
    (csi_cursor_right vt params).cursor_x < (VTERM_COLS : Int) := by
  unfold csi_cursor_right
  simp only [apply_ite Vt.cursor_x, VTERM_COLS]
  split_ifs <;> simp <;> omega

theorem csi_cursor_left_x (vt : Vt) (params : List Nat) (h : vt.cursor_x < (VTERM_COLS : Int)) :
    (csi_cursor_left vt params).cursor_x < (VTERM_COLS : Int) := by
  have hn := csi_count_pos params
  unfold csi_cursor_left
  simp only [apply_ite Vt.cursor_x, VTERM_COLS] at *
  split_ifs <;> omega

theorem csi_cursor_down_y (vt : Vt) (params : List Nat) :
    (csi_cursor_down vt params).cursor_y < (VTERM_ROWS : Int) := by
  unfold csi_cursor_down
  simp only [apply_ite Vt.cursor_y, VTERM_ROWS]
  split_ifs <;> simp <;> omega

theorem csi_cursor_up_y (vt : Vt) (params : List Nat) (h : vt.cursor_y < (VTERM_ROWS : Int)) :
    (csi_cursor_up vt params).cursor_y < (VTERM_ROWS : Int) := by
  have hn := csi_count_pos params
  unfold csi_cursor_up
  simp only [apply_ite Vt.cursor_y, VTERM_ROWS] at *
  split_ifs <;> omega

/-- `vterm_csi_dispatch` keeps the column inside the grid. -/
theorem vterm_csi_dispatch_x (vt : Vt) (params : List Nat) (c : Nat)
    (h : vt.cursor_x < (VTERM_COLS : Int)) :
    (vterm_csi_dispatch vt params c).1.cursor_x < (VTERM_COLS : Int) := by
  unfold vterm_csi_dispatch
  by_cases h0 : params.headD 0 = 63
  · rw [if_pos h0]; exact h
  · rw [if_neg h0]
    by_cases h1 : c = 109
    · rw [if_pos h1]; exact h
    rw [if_neg h1]
    by_cases h2 : c = 74
    · rw [if_pos h2]
      by_cases hp : params = [50] ∨ params = []
      · rw [if_pos hp]
        show (0 : Int) < (VTERM_COLS : Int)
        simp
      · rw [if_neg hp]; exact h
    rw [if_neg h2]
    by_cases h3 : c = 72 ∨ c = 102
    · rw [if_pos h3]; exact csi_cursor_pos_x vt params
    rw [if_neg h3]
    by_cases h4 : c = 65
    · rw [if_pos h4]
      show (csi_cursor_up vt params).cursor_x < (VTERM_COLS : Int)
      exact h
    rw [if_neg h4]
    by_cases h5 : c = 66
    · rw [if_pos h5]
      show (csi_cursor_down vt params).cursor_x < (VTERM_COLS : Int)
      exact h
    rw [if_neg h5]
    by_cases h6 : c = 67
    · rw [if_pos h6]; exact csi_cursor_right_x vt params
    rw [if_neg h6]
    by_cases h7 : c = 68
    · rw [if_pos h7]; exact csi_cursor_left_x vt params h
    rw [if_neg h7]
    by_cases h8 : c = 75
    · rw [if_pos h8]; exact h
    rw [if_neg h8]
    by_cases h9 : c = 88
    · rw [if_pos h9]; exact h
    rw [if_neg h9]
    by_cases h10 : c = 76
    · rw [if_pos h10]; exact h
    rw [if_neg h10]
    by_cases h11 : c = 77
    · rw [if_pos h11]; exact h
    rw [if_neg h11]
    by_cases h12 : c = 110
    · rw [if_pos h12]
      by_cases hp : params = [54]
      · rw [if_pos hp]; exact h
      · rw [if_neg hp]; exact h
    rw [if_neg h12]
    exact h

/-- `vterm_handle_escape` keeps the column inside the grid. -/
theorem vterm_handle_escape_x (vt : Vt) (c : Nat) (h : vt.cursor_x < (VTERM_COLS : Int)) :
    (vterm_handle_escape vt c).vt.cursor_x < (VTERM_COLS : Int) := by
  unfold vterm_handle_escape
  by_cases h0 : vt.escape_state = 0
  · rw [if_pos h0]
    by_cases hc : c = 27
    · rw [if_pos hc]; exact h
    · rw [if_neg hc]; exact h
  rw [if_neg h0]
  by_cases h1 : vt.escape_state = 1
  · rw [if_pos h1]
    by_cases hc1 : c = 91
    · rw [if_pos hc1]; exact h
    rw [if_neg hc1]
    by_cases hc2 : c = 68
    · rw [if_pos hc2]
      dsimp only
      split_ifs <;> exact h
    rw [if_neg hc2]
    by_cases hc3 : c = 77
    · rw [if_pos hc3]
      dsimp only
      split_ifs <;> exact h
    rw [if_neg hc3]
    by_cases hc4 : c = 69
    · rw [if_pos hc4]
      dsimp only
      split_ifs <;> (show (0 : Int) < (VTERM_COLS : Int); simp)
    rw [if_neg hc4]
    exact h
  rw [if_neg h1]
  dsimp only
  by_cases hf : (65 ≤ c ∧ c ≤ 90) ∨ (97 ≤ c ∧ c ≤ 122)
  · rw [if_pos hf]
    exact vterm_csi_dispatch_x vt _ c h
  · rw [if_neg hf]
    exact h

/-- `vterm_putchar` (one byte) keeps the column inside the grid. -/
theorem vterm_putchar1_x (vt : Vt) (c : Nat) (h : vt.cursor_x < (VTERM_COLS : Int)) :
    (vterm_putchar1 vt c).1.cursor_x < (VTERM_COLS : Int) := by
  unfold vterm_putchar1
  dsimp only
  by_cases hc : (vterm_handle_escape vt c).consumed
  · simp only [hc, if_true]
    exact vterm_handle_escape_x vt c h
  · simp only [hc, Bool.false_eq_true, if_false]
    exact vterm_putchar_internal_x _ _ (vterm_handle_escape_x vt c h)

/-- The session state described by the `vterm_write` loop's cached locals:
the authoritative struct fields overwritten with the cached values (what a
write-back of the cache would produce). -/
def syncVt (vt : Vt) (l : WriteLocals) : Vt :=
  { vt with cursor_x := l.cx, cursor_y := l.cy, current_attr := l.attr,
            escape_state := l.escMode }

theorem syncVt_self (vt : Vt) (l : WriteLocals) (h1 : l.cx = vt.cursor_x)
    (h2 : l.cy = vt.cursor_y) (h3 : l.attr = vt.current_attr)
    (h4 : l.escMode = vt.escape_state) : syncVt vt l = vt := by
  cases vt
  simp only [syncVt] at *
  simp [h1, h2, h3, h4]

/-- On a printable byte outside an escape sequence, one `vterm_putchar` is
the plain write-advance-wrap-scroll step. -/
theorem vterm_putchar1_printable (vt : Vt) (c : Nat) (h0 : vt.escape_state = 0)
    (hc1 : 32 ≤ c) (hc2 : c < 127) :
    vterm_putchar1 vt c =
      (let w : Vt := { vt with
          cells := writeCell vt.cells (vt.cursor_y * (VTERM_COLS : Int) + vt.cursor_x)
            ⟨c, vt.current_attr⟩,
          cursor_x := vt.cursor_x + 1 }
       if (VTERM_COLS : Int) ≤ w.cursor_x then
         let w2 : Vt := { w with cursor_x := 0, cursor_y := w.cursor_y + 1 }
         if (VTERM_ROWS : Int) ≤ w2.cursor_y then vterm_scroll w2 else w2
       else w, []) := by
  have h27 : ¬ c = 27 := by omega
  have h10 : ¬ c = 10 := by omega
  have h13 : ¬ c = 13 := by omega
  have h8 : ¬ c = 8 := by omega
  have h9 : ¬ c = 9 := by omega
  unfold vterm_putchar1 vterm_handle_escape vterm_putchar_internal
  simp only [h0, if_pos rfl, h27, h10, h13, h8, h9, if_false, ite_false, ite_true,
    Bool.false_eq_true, hc1, hc2, and_self, if_true]

theorem pmany_congr (s1 s2 : Vt) (rest : List Nat) (out1 out2 : List Nat)
    (h : s1 = s2) (ho : out1 = out2) :
    ((vterm_putchar_many s1 rest).1, out1 ++ (vterm_putchar_many s1 rest).2) =
      ((vterm_putchar_many s2 rest).1, out2 ++ (vterm_putchar_many s2 rest).2) := by
  rw [h, ho]

theorem pmany_congr2 (s1 s2 : Vt) (rest : List Nat) (out em : List Nat) (h : s1 = s2) :
    ((vterm_putchar_many s1 rest).1, out ++ em ++ (vterm_putchar_many s1 rest).2) =
      ((vterm_putchar_many s2 rest).1, out ++ (em ++ (vterm_putchar_many s2 rest).2)) := by
  rw [h, List.append_assoc]

theorem vterm_write_go_eq (data : List Nat) :
    ∀ (vt : Vt) (l : WriteLocals) (out : List Nat),
      l.cx < (VTERM_COLS : Int) →
      l.cursorPtr = l.cy * (VTERM_COLS : Int) + l.cx →
      l.rowEnd = l.cy * (VTERM_COLS : Int) + (VTERM_COLS : Int) →
      vterm_write_go vt l data out =
        ((vterm_putchar_many (syncVt vt l) data).1,
         out ++ (vterm_putchar_many (syncVt vt l) data).2) := by
  induction data with
  | nil =>
    intro vt l out hx hp hr
    simp [vterm_write_go, vterm_putchar_many, syncVt]
  | cons c rest ih =>
    intro vt l out hx hp hr
    by_cases hfast : l.escMode = 0 ∧ 32 ≤ c ∧ c < 127
    · obtain ⟨hm, hc1, hc2⟩ := hfast
      have hstep := vterm_putchar1_printable (syncVt vt l) c (by simp [syncVt, hm]) hc1 hc2
      simp only [vterm_write_go, vterm_putchar_many, hm, hc1, hc2, and_self, if_true, hstep]
      try dsimp only
      simp only [syncVt]
      try dsimp only
      by_cases hwrap : (VTERM_COLS : Int) ≤ l.cx + 1
      · have hwrap' : l.rowEnd ≤ l.cursorPtr + 1 := by
          simp only [VTERM_COLS] at *; omega
        have hcxC : l.cx + 1 = (VTERM_COLS : Int) := by
          simp only [VTERM_COLS] at *; omega
        rw [if_pos hwrap', if_pos hwrap]
        by_cases hscr : (VTERM_ROWS : Int) ≤ l.cy + 1
        · rw [if_pos hscr, if_pos hscr]
          rw [ih _ _ out (by simp [vterm_scroll, VTERM_COLS])
            (by simp [vterm_scroll]) (by simp [vterm_scroll])]
          apply pmany_congr
          · simp only [syncVt, vterm_scroll, hp, hm]
          · simp
        · rw [if_neg hscr, if_neg hscr]
          rw [ih _ _ out (by simp [VTERM_COLS])
            (by dsimp only; simp only [VTERM_COLS] at *; omega)
            (by dsimp only; simp only [VTERM_COLS] at *; omega)]
          apply pmany_congr
          · simp only [syncVt, hp, hm]
          · simp
      · have hwrap' : ¬ l.rowEnd ≤ l.cursorPtr + 1 := by
          simp only [VTERM_COLS] at *; omega
        rw [if_neg hwrap', if_neg hwrap]
        rw [ih _ _ out (by dsimp only; simp only [VTERM_COLS] at *; omega)
          (by dsimp only; omega) (by dsimp only; omega)]
        apply pmany_congr
        · simp only [syncVt, hp, hm]
        · simp
    · -- slow path
      simp only [vterm_write_go, vterm_putchar_many, vterm_putchar1, hfast, if_false]
      try dsimp only
      have hsync : ({ vt with cursor_x := l.cx, cursor_y := l.cy, current_attr := l.attr, escape_state := l.escMode } : Vt) = syncVt vt l := rfl
      rw [hsync]
      by_cases hchg :
          (if (vterm_handle_escape (syncVt vt l) c).consumed = true
            then (vterm_handle_escape (syncVt vt l) c).vt
            else vterm_putchar_internal (vterm_handle_escape (syncVt vt l) c).vt c).cursor_x ≠ l.cx ∨
          (if (vterm_handle_escape (syncVt vt l) c).consumed = true
            then (vterm_handle_escape (syncVt vt l) c).vt
            else vterm_putchar_internal (vterm_handle_escape (syncVt vt l) c).vt c).cursor_y ≠ l.cy
      · rw [if_pos hchg]
        have hx2 : (if (vterm_handle_escape (syncVt vt l) c).consumed = true
            then (vterm_handle_escape (syncVt vt l) c).vt
            else vterm_putchar_internal (vterm_handle_escape (syncVt vt l) c).vt c).cursor_x <
            (VTERM_COLS : Int) :=
          vterm_putchar1_x (syncVt vt l) c (by simp [syncVt]; exact hx)
        rw [ih _ _ _ hx2 (by dsimp only) (by dsimp only)]
        apply pmany_congr2
        exact syncVt_self _ _ rfl rfl rfl rfl
      · rw [if_neg hchg]
        push_neg at hchg
        rw [ih _ _ _ (by dsimp only; omega) (by dsimp only; rw [hp])
          (by dsimp only; rw [hr])]
        apply pmany_congr2
        exact syncVt_self _ _ hchg.1.symm hchg.2.symm rfl rfl

/-- The batched `vterm_write` loop is byte-at-a-time `vterm_putchar`,
provided the cached column starts inside the row (true of every state the
API can produce). -/
theorem vterm_write1_eq (vt : Vt) (data : List Nat) (h : vt.cursor_x < (VTERM_COLS : Int)) :
    vterm_write1 vt data = vterm_putchar_many vt data := by
  unfold vterm_write1
  rw [vterm_write_go_eq data vt _ [] h rfl rfl]
  rw [syncVt_self vt _ rfl rfl rfl rfl]
  simp

/-! ### Specification of plain printable writes (claims about wrapping and
scrolling) -/

/-- The cursor invariant documented for Terminal Sessions. -/
def CursorInv (vt : Vt) : Prop :=
  0 ≤ vt.cursor_x ∧ vt.cursor_x < (VTERM_COLS : Int) ∧
  0 ≤ vt.cursor_y ∧ vt.cursor_y < (VTERM_ROWS : Int)

/-- A printable byte (ASCII 32..126). -/
def printableByte (c : Nat) : Prop := 32 ≤ c ∧ c ≤ 126

instance (c : Nat) : Decidable (printableByte c) := by
  unfold printableByte
  infer_instance

/-- The grid extended past the last row with blank cells: rows scrolled in
from below start out as space + default attribute. -/
def virtualCells (g : Int → VtCell) (j : Int) : VtCell :=
  if j < (VTERM_ROWS : Int) * (VTERM_COLS : Int) then g j else blankVtCell

/-- The written tape: the characters of `data` laid out left-to-right,
top-to-bottom from flat position `pos` with attribute `attr`, over the
(virtually extended) original grid, all other cells unchanged. -/
def placedCells (g : Int → VtCell) (attr : Nat) (pos : Nat) (data : List Nat) (j : Int) : VtCell :=
  if (pos : Int) ≤ j ∧ j < (pos : Int) + data.length then
    ⟨data.getD (j - (pos : Int)).toNat 0, attr⟩
  else virtualCells g j

/-- How many times the grid scrolls while writing `n` printable characters
from flat position `pos`. -/
def scrollCount (pos n : Nat) : Nat := (pos + n) / VTERM_COLS - (VTERM_ROWS - 1)

/-- Writing one more character at flat position `pos` and then laying out
the rest one cell further is laying out everything from `pos`. -/
theorem getD_cons_shift (c : Nat) (rest : List Nat) (a b : Nat) (h : a = b + 1) :
    (c :: rest).getD a 0 = rest.getD b 0 := by
  subst h
  exact List.getD_cons_succ

theorem getD_cons_head (c : Nat) (rest : List Nat) (a : Nat) (h : a = 0) :
    (c :: rest).getD a 0 = c := by
  subst h
  exact List.getD_cons_zero

theorem placedCells_cons (g : Int → VtCell) (attr : Nat) (pos : Nat) (c : Nat)
    (rest : List Nat) (hpos : pos < VTERM_ROWS * VTERM_COLS) (j : Int) :
    placedCells (writeCell g (pos : Int) ⟨c, attr⟩) attr (pos + 1) rest j =
      placedCells g attr pos (c :: rest) j := by
  simp only [VTERM_ROWS, VTERM_COLS] at hpos
  simp only [placedCells, virtualCells, writeCell, List.length_cons, VTERM_ROWS, VTERM_COLS]
  split_ifs <;> try rfl
  any_goals (exfalso; omega)
  all_goals simp only [VtCell.mk.injEq, and_true]
  all_goals
    first
      | exact ((getD_cons_shift _ _ _ _ (by omega)).symm)
      | exact ((getD_cons_head _ _ _ (by omega)).symm)

/-- Writing the character that fills the last cell (triggering a scroll)
and laying the rest out from the start of the new last row is laying
everything out one row further down the written tape. -/
theorem placedCells_scroll (g : Int → VtCell) (attr : Nat) (c : Nat) (rest : List Nat)
    (j : Int) (hj : 0 ≤ j) :
    placedCells (scrollG (writeCell g ((VTERM_ROWS * VTERM_COLS - 1 : Nat) : Int) ⟨c, attr⟩))
        attr ((VTERM_ROWS - 1) * VTERM_COLS) rest j =
      placedCells g attr (VTERM_ROWS * VTERM_COLS - 1) (c :: rest) (j + (VTERM_COLS : Int)) := by
  simp only [placedCells, virtualCells, scrollG, writeCell, List.length_cons,
    VTERM_ROWS, VTERM_COLS]
  split_ifs <;> try rfl
  any_goals (exfalso; omega)
  all_goals simp only [VtCell.mk.injEq, and_true]
  all_goals
    first
      | exact ((getD_cons_shift _ _ _ _ (by omega)).symm)
      | exact ((getD_cons_head _ _ _ (by omega)).symm)

/-- The three outcomes of one printable `vterm_putchar` from a valid
cursor: plain advance, wrap to the next row, or wrap plus scroll. -/
theorem vterm_putchar1_printable_cases (vt : Vt) (c x y : Nat)
    (hx0 : vt.cursor_x = (x : Int)) (hy0 : vt.cursor_y = (y : Int))
    (hxC : x < VTERM_COLS) (hyR : y < VTERM_ROWS) (hes : vt.escape_state = 0)
    (hc1 : 32 ≤ c) (hc2 : c ≤ 126) :
    (x + 1 < VTERM_COLS ∧ vterm_putchar1 vt c = ({ vt with cells := writeCell vt.cells ((y * VTERM_COLS + x : Nat) : Int) ⟨c, vt.current_attr⟩, cursor_x := ((x + 1 : Nat) : Int) }, [])) ∨
    (x + 1 = VTERM_COLS ∧ y + 1 < VTERM_ROWS ∧ vterm_putchar1 vt c = ({ vt with cells := writeCell vt.cells ((y * VTERM_COLS + x : Nat) : Int) ⟨c, vt.current_attr⟩, cursor_x := 0, cursor_y := ((y + 1 : Nat) : Int) }, [])) ∨
    (x + 1 = VTERM_COLS ∧ y + 1 = VTERM_ROWS ∧ vterm_putchar1 vt c = ({ vt with cells := scrollG (writeCell vt.cells ((y * VTERM_COLS + x : Nat) : Int) ⟨c, vt.current_attr⟩), cursor_x := 0, cursor_y := ((VTERM_ROWS - 1 : Nat) : Int) }, [])) := by
  have hstep := vterm_putchar1_printable vt c hes hc1 (by omega)
  simp only at hstep
  have hidx : vt.cursor_y * (VTERM_COLS : Int) + vt.cursor_x = ((y * VTERM_COLS + x : Nat) : Int) := by
    rw [hx0, hy0]; push_cast; ring
  rw [hidx] at hstep
  by_cases hwrap : x + 1 < VTERM_COLS
  · left
    refine ⟨hwrap, ?_⟩
    rw [hstep]
    rw [if_neg (by simp only [VTERM_COLS] at *; omega)]
    simp only [hx0]
    push_cast
    rfl
  · by_cases hscr : y + 1 < VTERM_ROWS
    · right; left
      refine ⟨by simp only [VTERM_COLS] at *; omega, hscr, ?_⟩
      rw [hstep]
      rw [if_pos (by simp only [VTERM_COLS] at *; omega)]
      rw [if_neg (by simp only [VTERM_ROWS, VTERM_COLS] at *; omega)]
      simp only [hy0]
      push_cast
      rfl
    · right; right
      refine ⟨by simp only [VTERM_COLS] at *; omega, by simp only [VTERM_ROWS] at *; omega, ?_⟩
      rw [hstep]
      rw [if_pos (by simp only [VTERM_COLS] at *; omega)]
      rw [if_pos (by simp only [VTERM_ROWS, VTERM_COLS] at *; omega)]
      simp only [vterm_scroll]
      congr 1

/-- Full characterisation of byte-at-a-time printable writes: the grid
becomes the written tape shifted up by the number of scrolls, and the
cursor lands at the flat end position. -/
theorem vterm_putchar_many_printable (data : List Nat) :
    ∀ (vt : Vt) (x y : Nat),
      vt.cursor_x = (x : Int) → vt.cursor_y = (y : Int) →
      x < VTERM_COLS → y < VTERM_ROWS → vt.escape_state = 0 →
      (∀ c ∈ data, printableByte c) →
      (∀ j : Int, 0 ≤ j → j < (VTERM_ROWS : Int) * (VTERM_COLS : Int) →
          (vterm_putchar_many vt data).1.cells j =
            placedCells vt.cells vt.current_attr (y * VTERM_COLS + x) data
              (j + (scrollCount (y * VTERM_COLS + x) data.length : Int) * (VTERM_COLS : Int)))
      ∧ (vterm_putchar_many vt data).1.cursor_x =
          (((y * VTERM_COLS + x + data.length) % VTERM_COLS : Nat) : Int)
      ∧ (vterm_putchar_many vt data).1.cursor_y =
          (((y * VTERM_COLS + x + data.length) / VTERM_COLS -
            scrollCount (y * VTERM_COLS + x) data.length : Nat) : Int)
      ∧ (vterm_putchar_many vt data).1.current_attr = vt.current_attr
      ∧ (vterm_putchar_many vt data).1.escape_state = 0
      ∧ (vterm_putchar_many vt data).1.escape_buf = vt.escape_buf
      ∧ (vterm_putchar_many vt data).2 = [] := by
  induction data with
  | nil =>
    intro vt x y hx0 hy0 hxC hyR hes hall
    have hs : scrollCount (y * VTERM_COLS + x) 0 = 0 := by
      simp only [scrollCount, VTERM_COLS, VTERM_ROWS] at *
      omega
    refine ⟨?_, ?_, ?_, rfl, hes, rfl, rfl⟩
    · intro j hj0 hjR
      simp only [vterm_putchar_many, hs, placedCells, virtualCells, List.length_nil]
      rw [if_neg (by push_cast; omega)]
      rw [if_pos (by simp only [VTERM_ROWS, VTERM_COLS] at *; push_cast; omega)]
      simp
    · simp only [vterm_putchar_many, List.length_nil, hx0]
      congr 1
      simp only [VTERM_COLS, VTERM_ROWS] at *
      omega
    · simp only [vterm_putchar_many, List.length_nil, hy0, hs]
      congr 1
      simp only [VTERM_COLS, VTERM_ROWS] at *
      omega
  | cons c rest ih =>
    intro vt x y hx0 hy0 hxC hyR hes hall
    have hc : printableByte c := hall c (by simp)
    have hrest : ∀ b ∈ rest, printableByte b := fun b hb => hall b (by simp [hb])
    have hposlt : y * VTERM_COLS + x < VTERM_ROWS * VTERM_COLS := by
      simp only [VTERM_COLS, VTERM_ROWS] at *
      omega
    rcases vterm_putchar1_printable_cases vt c x y hx0 hy0 hxC hyR hes hc.1 hc.2 with
      ⟨hw, hstep⟩ | ⟨hw, hs2, hstep⟩ | ⟨hw, hs2, hstep⟩
    · -- plain advance
      have hIH := ih ({ vt with cells := writeCell vt.cells ((y * VTERM_COLS + x : Nat) : Int) ⟨c, vt.current_attr⟩, cursor_x := ((x + 1 : Nat) : Int) }) (x + 1) y rfl hy0 hw hyR hes hrest
      have hpos : y * VTERM_COLS + (x + 1) = y * VTERM_COLS + x + 1 := by omega
      rw [hpos] at hIH
      have hsum : y * VTERM_COLS + x + 1 + rest.length =
          y * VTERM_COLS + x + (c :: rest).length := by
        simp only [List.length_cons]
        omega
      have hscnt : scrollCount (y * VTERM_COLS + x + 1) rest.length =
          scrollCount (y * VTERM_COLS + x) (c :: rest).length := by
        simp only [scrollCount, List.length_cons, VTERM_COLS, VTERM_ROWS]
        omega
      simp only [vterm_putchar_many, hstep]
      refine ⟨?_, ?_, ?_, hIH.2.2.2.1, hIH.2.2.2.2.1, hIH.2.2.2.2.2.1, ?_⟩
      · intro j hj0 hjR
        rw [hIH.1 j hj0 hjR, hscnt]
        exact placedCells_cons vt.cells vt.current_attr (y * VTERM_COLS + x) c rest hposlt _
      · rw [hIH.2.1, hsum]
      · rw [hIH.2.2.1, hsum, hscnt]
      · simp only [hIH.2.2.2.2.2.2]
        rfl
    · -- wrap, no scroll
      have hIH := ih ({ vt with cells := writeCell vt.cells ((y * VTERM_COLS + x : Nat) : Int) ⟨c, vt.current_attr⟩, cursor_x := 0, cursor_y := ((y + 1 : Nat) : Int) }) 0 (y + 1) rfl rfl (by simp only [VTERM_COLS]; omega) hs2 hes hrest
      have hpos : (y + 1) * VTERM_COLS + 0 = y * VTERM_COLS + x + 1 := by
        simp only [VTERM_COLS] at *
        omega
      rw [hpos] at hIH
      have hsum : y * VTERM_COLS + x + 1 + rest.length =
          y * VTERM_COLS + x + (c :: rest).length := by
        simp only [List.length_cons]
        omega
      have hscnt : scrollCount (y * VTERM_COLS + x + 1) rest.length =
          scrollCount (y * VTERM_COLS + x) (c :: rest).length := by
        simp only [scrollCount, List.length_cons, VTERM_COLS, VTERM_ROWS]
        omega
      simp only [vterm_putchar_many, hstep]
      refine ⟨?_, ?_, ?_, hIH.2.2.2.1, hIH.2.2.2.2.1, hIH.2.2.2.2.2.1, ?_⟩
      · intro j hj0 hjR
        rw [hIH.1 j hj0 hjR, hscnt]
        exact placedCells_cons vt.cells vt.current_attr (y * VTERM_COLS + x) c rest hposlt _
      · rw [hIH.2.1, hsum]
      · rw [hIH.2.2.1, hsum, hscnt]
      · simp only [hIH.2.2.2.2.2.2]
        rfl
    · -- wrap and scroll
      have hposIdx : y * VTERM_COLS + x = VTERM_ROWS * VTERM_COLS - 1 := by
        simp only [VTERM_COLS, VTERM_ROWS] at *
        omega
      rw [hposIdx] at hstep
      have hIH := ih ({ vt with cells := scrollG (writeCell vt.cells ((VTERM_ROWS * VTERM_COLS - 1 : Nat) : Int) ⟨c, vt.current_attr⟩), cursor_x := 0, cursor_y := ((VTERM_ROWS - 1 : Nat) : Int) }) 0 (VTERM_ROWS - 1) rfl rfl (by simp only [VTERM_COLS]; omega) (by simp only [VTERM_ROWS]; omega) hes hrest
      have hpos' : (VTERM_ROWS - 1) * VTERM_COLS + 0 = (VTERM_ROWS - 1) * VTERM_COLS := by omega
      rw [hpos'] at hIH
      rw [hposIdx]
      have hscnt : scrollCount ((VTERM_ROWS - 1) * VTERM_COLS) rest.length + 1 =
          scrollCount (VTERM_ROWS * VTERM_COLS - 1) (c :: rest).length := by
        simp only [scrollCount, List.length_cons, VTERM_COLS, VTERM_ROWS]
        omega
      have hsum : (VTERM_ROWS - 1) * VTERM_COLS + rest.length + VTERM_COLS =
          VTERM_ROWS * VTERM_COLS - 1 + (c :: rest).length := by
        simp only [List.length_cons, VTERM_COLS, VTERM_ROWS]
        omega
      simp only [vterm_putchar_many, hstep]
      refine ⟨?_, ?_, ?_, hIH.2.2.2.1, hIH.2.2.2.2.1, hIH.2.2.2.2.2.1, ?_⟩
      · intro j hj0 hjR
        rw [hIH.1 j hj0 hjR]
        have hidx : j + (scrollCount (VTERM_ROWS * VTERM_COLS - 1) (c :: rest).length :
            Int) * (VTERM_COLS : Int) =
            (j + (scrollCount ((VTERM_ROWS - 1) * VTERM_COLS) rest.length : Int) *
              (VTERM_COLS : Int)) + (VTERM_COLS : Int) := by
          rw [← hscnt]
          push_cast
          ring
        rw [hidx]
        exact placedCells_scroll vt.cells vt.current_attr c rest _ (by positivity)
      · rw [hIH.2.1]
        congr 1
        simp only [scrollCount, List.length_cons, VTERM_COLS, VTERM_ROWS]
        omega
      · rw [hIH.2.2.1]
        congr 1
        simp only [scrollCount, List.length_cons, VTERM_COLS, VTERM_ROWS]
        omega
      · simp only [hIH.2.2.2.2.2.2]
        rfl

/-- A cleared terminal used as a concrete test fixture. -/
def vtFixture : Vt :=
  { cells := fun _ => blankVtCell, cursor_x := 0, cursor_y := 0,
    current_attr := VTERM_DEFAULT_ATTR, escape_state := 0, escape_buf := [] }

/-- C1: for every sequence of printable bytes (ASCII 32..126) written to a
session via `vterm_write` or `vterm_putchar`, the resulting cell grid is
those characters placed left-to-right, top-to-bottom from the cursor,
wrapping to the next row exactly at column `VTERM_COLS` and scrolling
exactly at row `VTERM_ROWS` (the `scrollCount` shift of the written tape
`placedCells`, whose off-tape cells are the unchanged original cells). -/
theorem claim_C1_printable_writes (vt : Vt) (data : List Nat)
    (hInv : CursorInv vt) (hes : vt.escape_state = 0)
    (hall : ∀ c ∈ data, printableByte c) :
    ∀ j : Int, 0 ≤ j → j < (VTERM_ROWS : Int) * (VTERM_COLS : Int) →
      (vterm_putchar_many vt data).1.cells j =
        placedCells vt.cells vt.current_attr
          ((vt.cursor_y * (VTERM_COLS : Int) + vt.cursor_x).toNat) data
          (j + (scrollCount ((vt.cursor_y * (VTERM_COLS : Int) + vt.cursor_x).toNat)
            data.length : Int) * (VTERM_COLS : Int)) ∧
      (vterm_write1 vt data).1.cells j =
        placedCells vt.cells vt.current_attr
          ((vt.cursor_y * (VTERM_COLS : Int) + vt.cursor_x).toNat) data
          (j + (scrollCount ((vt.cursor_y * (VTERM_COLS : Int) + vt.cursor_x).toNat)
            data.length : Int) * (VTERM_COLS : Int)) := by
  obtain ⟨hx0, hxC, hy0, hyR⟩ := hInv
  have hx : vt.cursor_x = ((vt.cursor_x.toNat : Nat) : Int) := by omega
  have hy : vt.cursor_y = ((vt.cursor_y.toNat : Nat) : Int) := by omega
  have hchar := vterm_putchar_many_printable data vt vt.cursor_x.toNat vt.cursor_y.toNat
    hx hy (by simp only [VTERM_COLS] at *; omega) (by simp only [VTERM_ROWS] at *; omega)
    hes hall
  have hpos : (vt.cursor_y * (VTERM_COLS : Int) + vt.cursor_x).toNat =
      vt.cursor_y.toNat * VTERM_COLS + vt.cursor_x.toNat := by
    simp only [VTERM_COLS] at *
    omega
  intro j hj0 hjR
  rw [hpos]
  refine ⟨hchar.1 j hj0 hjR, ?_⟩
  rw [vterm_write1_eq vt data (by omega)]
  exact hchar.1 j hj0 hjR

/-- Witness for C1 at a concrete input: two characters written into a
cleared terminal. -/
theorem claim_C1_printable_writes_witness :
    CursorInv vtFixture ∧ vtFixture.escape_state = 0 ∧
    (∀ c ∈ [65, 66], printableByte c) ∧
    ((0 : Int) ≤ 1 ∧ (1 : Int) < (VTERM_ROWS : Int) * (VTERM_COLS : Int)) ∧
    ((vterm_putchar_many vtFixture [65, 66]).1.cells 1 =
        placedCells vtFixture.cells vtFixture.current_attr
          ((vtFixture.cursor_y * (VTERM_COLS : Int) + vtFixture.cursor_x).toNat) [65, 66]
          (1 + (scrollCount ((vtFixture.cursor_y * (VTERM_COLS : Int) +
            vtFixture.cursor_x).toNat) [65, 66].length : Int) * (VTERM_COLS : Int)) ∧
      (vterm_write1 vtFixture [65, 66]).1.cells 1 =
        placedCells vtFixture.cells vtFixture.current_attr
          ((vtFixture.cursor_y * (VTERM_COLS : Int) + vtFixture.cursor_x).toNat) [65, 66]
          (1 + (scrollCount ((vtFixture.cursor_y * (VTERM_COLS : Int) +
            vtFixture.cursor_x).toNat) [65, 66].length : Int) * (VTERM_COLS : Int))) :=
  ⟨⟨by simp [vtFixture], by simp [vtFixture, VTERM_COLS], by simp [vtFixture],
      by simp [vtFixture, VTERM_ROWS]⟩,
   rfl,
   by decide,
   ⟨by norm_num, by norm_num⟩,
   claim_C1_printable_writes vtFixture [65, 66]
     ⟨by simp [vtFixture], by simp [vtFixture, VTERM_COLS], by simp [vtFixture],
      by simp [vtFixture, VTERM_ROWS]⟩
     rfl (by decide) 1 (by norm_num) (by norm_num)⟩

/-! ### Cursor invariant preservation (claim C4) -/

theorem vterm_putchar_internal_inv (vt : Vt) (c : Nat) (h : CursorInv vt) :
    CursorInv (vterm_putchar_internal vt c) := by
  have hge := tabLoop_ge vt.current_attr vt.cursor_y
    ((VTERM_COLS : Int) - vt.cursor_x).toNat vt.cells vt.cursor_x (le_refl _)
  have hle := tabLoop_le vt.current_attr vt.cursor_y
    ((VTERM_COLS : Int) - vt.cursor_x).toNat vt.cells vt.cursor_x (le_refl _) h.2.1
  unfold vterm_putchar_internal
  simp only [CursorInv, vterm_scroll, apply_ite Vt.cursor_x, apply_ite Vt.cursor_y,
    VTERM_COLS, VTERM_ROWS] at *
  split_ifs <;> omega

theorem csi_cursor_up_inv (vt : Vt) (params : List Nat) (h : CursorInv vt) :
    CursorInv (csi_cursor_up vt params) := by
  have hn := csi_count_pos params
  unfold csi_cursor_up
  simp only [CursorInv, apply_ite Vt.cursor_x, apply_ite Vt.cursor_y,
    VTERM_COLS, VTERM_ROWS] at *
  split_ifs <;> (try dsimp only) <;> omega

theorem csi_cursor_down_inv (vt : Vt) (params : List Nat) (h : CursorInv vt) :
    CursorInv (csi_cursor_down vt params) := by
  have hn := csi_count_pos params
  unfold csi_cursor_down
  simp only [CursorInv, apply_ite Vt.cursor_x, apply_ite Vt.cursor_y,
    VTERM_COLS, VTERM_ROWS] at *
  split_ifs <;> (try dsimp only) <;> omega

theorem csi_cursor_right_inv (vt : Vt) (params : List Nat) (h : CursorInv vt) :
    CursorInv (csi_cursor_right vt params) := by
  have hn := csi_count_pos params
  unfold csi_cursor_right
  simp only [CursorInv, apply_ite Vt.cursor_x, apply_ite Vt.cursor_y,
    VTERM_COLS, VTERM_ROWS] at *
  split_ifs <;> (try dsimp only) <;> omega

theorem csi_cursor_left_inv (vt : Vt) (params : List Nat) (h : CursorInv vt) :
    CursorInv (csi_cursor_left vt params) := by
  have hn := csi_count_pos params
  unfold csi_cursor_left
  simp only [CursorInv, apply_ite Vt.cursor_x, apply_ite Vt.cursor_y,
    VTERM_COLS, VTERM_ROWS] at *
  split_ifs <;> (try dsimp only) <;> omega

theorem csi_cursor_pos_inv (vt : Vt) (params : List Nat) :
    CursorInv (csi_cursor_pos vt params) := by
  unfold csi_cursor_pos
  simp only [CursorInv, apply_ite Vt.cursor_x, apply_ite Vt.cursor_y,
    VTERM_COLS, VTERM_ROWS] at *
  split_ifs <;> (try dsimp only) <;> omega

theorem vterm_clear_internal_inv (vt : Vt) : CursorInv (vterm_clear_internal vt) := by
  unfold vterm_clear_internal
  simp only [CursorInv, VTERM_COLS, VTERM_ROWS]
  norm_num

theorem vterm_csi_dispatch_inv (vt : Vt) (params : List Nat) (c : Nat) (h : CursorInv vt) :
    CursorInv (vterm_csi_dispatch vt params c).1 := by
  unfold vterm_csi_dispatch
  by_cases h0 : params.headD 0 = 63
  · rw [if_pos h0]; exact h
  · rw [if_neg h0]
    by_cases h1 : c = 109
    · rw [if_pos h1]; exact h
    rw [if_neg h1]
    by_cases h2 : c = 74
    · rw [if_pos h2]
      by_cases hp : params = [50] ∨ params = []
      · rw [if_pos hp]; exact vterm_clear_internal_inv vt
      · rw [if_neg hp]; exact h
    rw [if_neg h2]
    by_cases h3 : c = 72 ∨ c = 102
    · rw [if_pos h3]; exact csi_cursor_pos_inv vt params
    rw [if_neg h3]
    by_cases h4 : c = 65
    · rw [if_pos h4]; exact csi_cursor_up_inv vt params h
    rw [if_neg h4]
    by_cases h5 : c = 66
    · rw [if_pos h5]; exact csi_cursor_down_inv vt params h
    rw [if_neg h5]
    by_cases h6 : c = 67
    · rw [if_pos h6]; exact csi_cursor_right_inv vt params h
    rw [if_neg h6]
    by_cases h7 : c = 68
    · rw [if_pos h7]; exact csi_cursor_left_inv vt params h
    rw [if_neg h7]
    by_cases h8 : c = 75
    · rw [if_pos h8]; exact h
    rw [if_neg h8]
    by_cases h9 : c = 88
    · rw [if_pos h9]; exact h
    rw [if_neg h9]
    by_cases h10 : c = 76
    · rw [if_pos h10]; exact h
    rw [if_neg h10]
    by_cases h11 : c = 77
    · rw [if_pos h11]; exact h
    rw [if_neg h11]
    by_cases h12 : c = 110
    · rw [if_pos h12]
      by_cases hp : params = [54]
      · rw [if_pos hp]; exact h
      · rw [if_neg hp]; exact h
    rw [if_neg h12]
    exact h

theorem vterm_handle_escape_inv (vt : Vt) (c : Nat) (h : CursorInv vt) :
    CursorInv (vterm_handle_escape vt c).vt := by
  unfold vterm_handle_escape
  by_cases h0 : vt.escape_state = 0
  · rw [if_pos h0]
    by_cases hc : c = 27
    · rw [if_pos hc]; exact h
    · rw [if_neg hc]; exact h
  rw [if_neg h0]
  by_cases h1 : vt.escape_state = 1
  · rw [if_pos h1]
    by_cases hc1 : c = 91
    · rw [if_pos hc1]; exact h
    rw [if_neg hc1]
    by_cases hc2 : c = 68
    · rw [if_pos hc2]
      dsimp only
      obtain ⟨ha, hb, hcy, hd⟩ := h
      constructor <;> [skip; constructor] <;> [skip; skip; constructor]
      all_goals
        simp only [vterm_scroll, apply_ite Vt.cursor_x, apply_ite Vt.cursor_y,
          VTERM_COLS, VTERM_ROWS] at *
      all_goals split_ifs <;> omega
    rw [if_neg hc2]
    by_cases hc3 : c = 77
    · rw [if_pos hc3]
      dsimp only
      obtain ⟨ha, hb, hcy, hd⟩ := h
      constructor <;> [skip; constructor] <;> [skip; skip; constructor]
      all_goals
        simp only [vterm_scroll, apply_ite Vt.cursor_x, apply_ite Vt.cursor_y,
          VTERM_COLS, VTERM_ROWS] at *
      all_goals split_ifs <;> omega
    rw [if_neg hc3]
    by_cases hc4 : c = 69
    · rw [if_pos hc4]
      dsimp only
      obtain ⟨ha, hb, hcy, hd⟩ := h
      constructor <;> [skip; constructor] <;> [skip; skip; constructor]
      all_goals
        simp only [vterm_scroll, apply_ite Vt.cursor_x, apply_ite Vt.cursor_y,
          VTERM_COLS, VTERM_ROWS] at *
      all_goals split_ifs <;> omega
    rw [if_neg hc4]
    exact h
  rw [if_neg h1]
  dsimp only
  by_cases hf : (65 ≤ c ∧ c ≤ 90) ∨ (97 ≤ c ∧ c ≤ 122)
  · rw [if_pos hf]
    exact vterm_csi_dispatch_inv vt _ c h
  · rw [if_neg hf]
    exact h

theorem vterm_putchar1_inv (vt : Vt) (c : Nat) (h : CursorInv vt) :
    CursorInv (vterm_putchar1 vt c).1 := by
  unfold vterm_putchar1
  dsimp only
  by_cases hc : (vterm_handle_escape vt c).consumed
  · simp only [hc, if_true]
    exact vterm_handle_escape_inv vt c h
  · simp only [hc, Bool.false_eq_true, if_false]
    exact vterm_putchar_internal_inv _ _ (vterm_handle_escape_inv vt c h)

theorem vterm_putchar_many_inv (data : List Nat) :
    ∀ (vt : Vt), CursorInv vt → CursorInv (vterm_putchar_many vt data).1 := by
  induction data with
  | nil => intro vt h; exact h
  | cons c rest ih =>
    intro vt h
    simp only [vterm_putchar_many]
    exact ih _ (vterm_putchar1_inv vt c h)

theorem vterm_write1_inv (vt : Vt) (data : List Nat) (h : CursorInv vt) :
    CursorInv (vterm_write1 vt data).1 := by
  rw [vterm_write1_eq vt data h.2.1]
  exact vterm_putchar_many_inv data vt h

/-- The cursor invariant of a stored session. -/
def SessCursorInv (sess : Session) : Prop :=
  0 ≤ sess.cursor_x ∧ sess.cursor_x < (VTERM_COLS : Int) ∧
  0 ≤ sess.cursor_y ∧ sess.cursor_y < (VTERM_ROWS : Int)

/-- `vterm_switch` never touches any session's cursor fields. -/
theorem vterm_switch_inv (s : Sys) (id : Int) (i : Fin VTERM_COUNT)
    (h : SessCursorInv (s.vterms i)) : SessCursorInv ((vterm_switch s id).vterms i) := by
  unfold vterm_switch
  split_ifs
  · exact h
  · exact h
  · dsimp only
    by_cases hio : i = s.s_active_vt
    · subst hio
      rw [Function.update_same]
      exact h
    · rw [Function.update_noteq hio]
      exact h

/-- A blank session and a four-session system used as concrete fixtures. -/
def sessFixture : Session :=
  { storage := fun _ => blankVtCell, cursor_x := 0, cursor_y := 0,
    current_attr := VTERM_DEFAULT_ATTR, escape_state := 0, escape_buf := [],
    dirty := false, input_queue := [] }

def sysFixture : Sys :=
  { vterms := fun _ => sessFixture, s_iram_buffer := fun _ => blankVtCell,
    s_active_vt := 0, s_esc_buf := [], s_esc_start := 0,
    switch_events := [], render_events := [] }

/-- C4: every operation on a session — writing any byte (printable,
control, or any byte of an escape sequence, including cursor positioning
and movement, insert/delete line and erase sequences), batched writes,
clear, and session switches — preserves the cursor invariant
`0 ≤ cursor_x < VTERM_COLS ∧ 0 ≤ cursor_y < VTERM_ROWS`. -/
theorem claim_C4_cursor_invariant :
    (∀ (vt : Vt) (c : Nat), CursorInv vt → CursorInv (vterm_putchar1 vt c).1) ∧
    (∀ (vt : Vt) (data : List Nat), CursorInv vt → CursorInv (vterm_write1 vt data).1) ∧
    (∀ vt : Vt, CursorInv (vterm_clear_internal vt)) ∧
    (∀ (s : Sys) (id : Int) (i : Fin VTERM_COUNT),
      SessCursorInv (s.vterms i) → SessCursorInv ((vterm_switch s id).vterms i)) :=
  ⟨vterm_putchar1_inv, vterm_write1_inv, vterm_clear_internal_inv, vterm_switch_inv⟩

/-- Witness for C4 at concrete inputs: a byte write, an escape-sequence
write, a clear and a switch, all starting from blank fixtures. -/
theorem claim_C4_cursor_invariant_witness :
    CursorInv vtFixture ∧ SessCursorInv (sysFixture.vterms 0) ∧
    CursorInv (vterm_putchar1 vtFixture 65).1 ∧
    CursorInv (vterm_write1 vtFixture [27, 91, 50, 74]).1 ∧
    CursorInv (vterm_clear_internal vtFixture) ∧
    SessCursorInv ((vterm_switch sysFixture 1).vterms 0) := by
  have hInv : CursorInv vtFixture := by
    constructor <;> [simp [vtFixture]; constructor] <;>
      [simp [vtFixture, VTERM_COLS]; constructor] <;>
      [simp [vtFixture]; simp [vtFixture, VTERM_ROWS]]
  have hSess : SessCursorInv (sysFixture.vterms 0) := by
    constructor <;> [simp [sysFixture, sessFixture]; constructor] <;>
      [simp [sysFixture, sessFixture, VTERM_COLS]; constructor] <;>
      [simp [sysFixture, sessFixture]; simp [sysFixture, sessFixture, VTERM_ROWS]]
  exact ⟨hInv, hSess,
    claim_C4_cursor_invariant.1 vtFixture 65 hInv,
    claim_C4_cursor_invariant.2.1 vtFixture [27, 91, 50, 74] hInv,
    claim_C4_cursor_invariant.2.2.1 vtFixture,
    claim_C4_cursor_invariant.2.2.2 sysFixture 1 0 hSess⟩

/-- C5 counterexample: the claim as stated quantifies over *every* session
state.  Starting from `cursor_x = 130` (outside the row, a state the claim's
quantifier admits), the batched write's cached cell pointer starts at
offset `cy*COLS + 130` and is only re-derived on a scroll, so writing two
bytes puts the second at offset 131, while byte-at-a-time `vterm_putchar`
wraps the cursor to `(0, cy+1)` and puts it at offset 128. -/
theorem claim_C5_batched_write_equiv_cex :
    (vterm_write1 { vtFixture with cursor_x := 130 } [97, 98]).1.cells 131 ≠
    (vterm_putchar_many { vtFixture with cursor_x := 130 } [97, 98]).1.cells 131 := by
  decide

/-- C5 (amended): for every session state whose cursor column lies inside
the row — an invariant of every state the API can produce (claim C4) — and
every byte string, the batched `vterm_write` loop with its locally cached
cursor, attribute, escape mode and cell pointer leaves the cells, cursor,
attribute, escape-parser state and emitted response bytes exactly equal to
running `vterm_putchar` on each byte in order. -/
theorem claim_C5_batched_write_equiv (vt : Vt) (data : List Nat)
    (h : vt.cursor_x < (VTERM_COLS : Int)) :
    vterm_write1 vt data = vterm_putchar_many vt data :=
  vterm_write1_eq vt data h

/-- Witness for C5 at a concrete state and byte string. -/
theorem claim_C5_batched_write_equiv_witness :
    vtFixture.cursor_x < (VTERM_COLS : Int) ∧
    vterm_write1 vtFixture [72, 105] = vterm_putchar_many vtFixture [72, 105] :=
  ⟨by decide, claim_C5_batched_write_equiv vtFixture [72, 105] (by decide)⟩

/-- Laying a tape of `VTERM_ROWS*VTERM_COLS + k` characters over an
all-blank grid, read one row down, shows the tape from its second row and
blanks past its end. -/
theorem placedCells_cleared (g : Int → VtCell)
    (hg : ∀ m : Int, 0 ≤ m → m < (VTERM_ROWS : Int) * (VTERM_COLS : Int) → g m = blankVtCell)
    (attr : Nat) (data : List Nat) (k : Nat)
    (hk : data.length = VTERM_ROWS * VTERM_COLS + k) (j : Int) (hj0 : 0 ≤ j) :
    placedCells g attr 0 data (j + (VTERM_COLS : Int)) =
      if j < (((VTERM_ROWS - 1) * VTERM_COLS + k : Nat) : Int) then
        ⟨data.getD (j + (VTERM_COLS : Int)).toNat 0, attr⟩
      else blankVtCell := by
  simp only [placedCells, virtualCells, Nat.cast_zero, zero_add, sub_zero,
    VTERM_ROWS, VTERM_COLS] at *
  split_ifs <;>
    first
      | rfl
      | (exact hg _ (by omega) (by omega))
      | (exfalso; omega)

/-- C3: (i) a scroll moves each cell of rows `1..ROWS-1` into the row
above it and (ii) clears the new last row to space + default attribute;
(iii) (amended: `1 ≤ k < VTERM_COLS` — at `k = VTERM_COLS` the eager
scroll after the last full row has already blanked the final row) writing
`VTERM_ROWS*VTERM_COLS + k` printable characters into a cleared session
leaves the grid showing the last `VTERM_ROWS - 1` full rows of the input
followed by the final `k` characters on the last row (blank past them):
the oldest rows scroll off, never the newest. -/
theorem claim_C3_scroll_drops_oldest :
    (∀ (vt : Vt) (r c : Nat), r + 1 < VTERM_ROWS → c < VTERM_COLS →
        (vterm_scroll vt).cells ((r * VTERM_COLS + c : Nat) : Int) =
          vt.cells (((r + 1) * VTERM_COLS + c : Nat) : Int)) ∧
    (∀ (vt : Vt) (c : Nat), c < VTERM_COLS →
        (vterm_scroll vt).cells (((VTERM_ROWS - 1) * VTERM_COLS + c : Nat) : Int) =
          blankVtCell) ∧
    (∀ (vt : Vt) (data : List Nat) (k : Nat),
        vt.escape_state = 0 → 1 ≤ k → k < VTERM_COLS →
        data.length = VTERM_ROWS * VTERM_COLS + k →
        (∀ b ∈ data, printableByte b) →
        ∀ j : Int, 0 ≤ j → j < (VTERM_ROWS : Int) * (VTERM_COLS : Int) →
          (vterm_putchar_many (vterm_clear_internal vt) data).1.cells j =
            if j < (((VTERM_ROWS - 1) * VTERM_COLS + k : Nat) : Int) then
              ⟨data.getD (j + (VTERM_COLS : Int)).toNat 0, VTERM_DEFAULT_ATTR⟩
            else blankVtCell) := by
  refine ⟨?_, ?_, ?_⟩
  · intro vt r c hr hc
    simp only [vterm_scroll, scrollG]
    rw [if_pos (by simp only [VTERM_ROWS, VTERM_COLS] at *; omega)]
    congr 1
    push_cast
    ring
  · intro vt c hc
    simp only [vterm_scroll, scrollG]
    rw [if_neg (by simp only [VTERM_ROWS, VTERM_COLS] at *; omega)]
    rw [if_pos (by simp only [VTERM_ROWS, VTERM_COLS] at *; omega)]
  · intro vt data k hes hk1 hkC hlen hall j hj0 hjR
    have hchar := vterm_putchar_many_printable data (vterm_clear_internal vt) 0 0
      rfl rfl (by decide) (by decide) hes hall
    have h := hchar.1 j hj0 hjR
    have hs : scrollCount (0 * VTERM_COLS + 0) data.length = 1 := by
      simp only [scrollCount, VTERM_ROWS, VTERM_COLS] at *
      omega
    have e1 : 0 * VTERM_COLS + 0 = 0 := by omega
    have e2 : j + ((1 : Nat) : Int) * (VTERM_COLS : Int) = j + (VTERM_COLS : Int) := by
      simp
    have hg : ∀ m : Int, 0 ≤ m → m < (VTERM_ROWS : Int) * (VTERM_COLS : Int) →
        (vterm_clear_internal vt).cells m = blankVtCell := by
      intro m hm0 hmR
      simp only [vterm_clear_internal]
      rw [if_pos ⟨hm0, hmR⟩]
    rw [h, hs, e1, e2,
      placedCells_cleared (vterm_clear_internal vt).cells hg
        (vterm_clear_internal vt).current_attr data k hlen j hj0]
    rfl

/-- C3 counterexample to the unrestricted claim (`k ≥ 1`): at
`k = VTERM_COLS` the input's last full row has already triggered an eager
scroll, so the final row is blank, while the claim predicts the last `k`
characters there — writing `VTERM_ROWS*VTERM_COLS + VTERM_COLS` copies of
`'A'` into a cleared session leaves the first cell of the last row blank,
not `'A'`. -/
theorem claim_C3_scroll_drops_oldest_cex :
    (vterm_putchar_many (vterm_clear_internal vtFixture)
        (List.replicate (VTERM_ROWS * VTERM_COLS + VTERM_COLS) 65)).1.cells
        (((VTERM_ROWS - 1) * VTERM_COLS : Nat) : Int) = blankVtCell ∧
    blankVtCell ≠ (⟨65, VTERM_DEFAULT_ATTR⟩ : VtCell) := by
  refine ⟨?_, by decide⟩
  have hall : ∀ b ∈ List.replicate (VTERM_ROWS * VTERM_COLS + VTERM_COLS) 65,
      printableByte b := by
    intro b hb
    rw [List.eq_of_mem_replicate hb]
    decide
  have hchar := vterm_putchar_many_printable
    (List.replicate (VTERM_ROWS * VTERM_COLS + VTERM_COLS) 65)
    (vterm_clear_internal vtFixture) 0 0 rfl rfl (by decide) (by decide) rfl hall
  have h := hchar.1 (((VTERM_ROWS - 1) * VTERM_COLS : Nat) : Int) (by decide) (by decide)
  have hs2 : scrollCount (0 * VTERM_COLS + 0)
      (List.replicate (VTERM_ROWS * VTERM_COLS + VTERM_COLS) 65).length = 2 := by
    rw [List.length_replicate]
    decide
  have e1 : 0 * VTERM_COLS + 0 = 0 := by omega
  have e : (((VTERM_ROWS - 1) * VTERM_COLS : Nat) : Int) + ((2 : Nat) : Int) * (VTERM_COLS : Int) =
      ((VTERM_ROWS * VTERM_COLS : Nat) : Int) + (VTERM_COLS : Int) := by
    simp only [VTERM_ROWS, VTERM_COLS]
    decide
  have hg : ∀ m : Int, 0 ≤ m → m < (VTERM_ROWS : Int) * (VTERM_COLS : Int) →
      (vterm_clear_internal vtFixture).cells m = blankVtCell := by
    intro m hm0 hmR
    simp only [vterm_clear_internal]
    rw [if_pos ⟨hm0, hmR⟩]
  rw [h, hs2, e1, e,
    placedCells_cleared (vterm_clear_internal vtFixture).cells hg
      (vterm_clear_internal vtFixture).current_attr
      (List.replicate (VTERM_ROWS * VTERM_COLS + VTERM_COLS) 65) VTERM_COLS
      (by rw [List.length_replicate]) ((VTERM_ROWS * VTERM_COLS : Nat) : Int) (by decide)]
  rw [if_neg (by decide)]

/-- Witness for C3 at concrete inputs: one shifted cell and one blanked
cell of a scroll, and one displayed cell after writing
`VTERM_ROWS*VTERM_COLS + 1` characters into a cleared terminal. -/
theorem claim_C3_scroll_drops_oldest_witness :
    (0 + 1 < VTERM_ROWS ∧ 2 < VTERM_COLS ∧
      (vterm_scroll vtFixture).cells ((0 * VTERM_COLS + 2 : Nat) : Int) =
        vtFixture.cells (((0 + 1) * VTERM_COLS + 2 : Nat) : Int)) ∧
    (3 < VTERM_COLS ∧
      (vterm_scroll vtFixture).cells (((VTERM_ROWS - 1) * VTERM_COLS + 3 : Nat) : Int) =
        blankVtCell) ∧
    (vtFixture.escape_state = 0 ∧ 1 ≤ 1 ∧ 1 < VTERM_COLS ∧
      (List.replicate (VTERM_ROWS * VTERM_COLS + 1) 66).length =
        VTERM_ROWS * VTERM_COLS + 1 ∧
      (∀ b ∈ List.replicate (VTERM_ROWS * VTERM_COLS + 1) 66, printableByte b) ∧
      (0 : Int) ≤ 0 ∧ (0 : Int) < (VTERM_ROWS : Int) * (VTERM_COLS : Int) ∧
      (vterm_putchar_many (vterm_clear_internal vtFixture)
          (List.replicate (VTERM_ROWS * VTERM_COLS + 1) 66)).1.cells 0 =
        if (0 : Int) < (((VTERM_ROWS - 1) * VTERM_COLS + 1 : Nat) : Int) then
          ⟨(List.replicate (VTERM_ROWS * VTERM_COLS + 1) 66).getD
            ((0 : Int) + (VTERM_COLS : Int)).toNat 0, VTERM_DEFAULT_ATTR⟩
        else blankVtCell) := by
  have hall : ∀ b ∈ List.replicate (VTERM_ROWS * VTERM_COLS + 1) 66, printableByte b := by
    intro b hb
    rw [List.eq_of_mem_replicate hb]
    decide
  refine ⟨⟨by decide, by decide,
      claim_C3_scroll_drops_oldest.1 vtFixture 0 2 (by decide) (by decide)⟩,
    ⟨by decide, claim_C3_scroll_drops_oldest.2.1 vtFixture 3 (by decide)⟩,
    rfl, by decide, by decide, by rw [List.length_replicate], hall,
    by decide, by decide,
    claim_C3_scroll_drops_oldest.2.2 vtFixture
      (List.replicate (VTERM_ROWS * VTERM_COLS + 1) 66) 1 rfl (by decide) (by decide)
      (by rw [List.length_replicate]) hall 0 (by decide) (by decide)⟩

theorem vtIndex_val (i : Fin VTERM_COUNT) : vtIndex ((i.val : Nat) : Int) = i := by
  apply Fin.ext
  simp [vtIndex, Nat.mod_eq_of_lt i.isLt]

/-- `vterm_switch` on a valid, non-active target: save the IRAM grid into
the outgoing session, load the target's grid into IRAM, record the switch. -/
theorem vterm_switch_spec (s : Sys) (j : Fin VTERM_COUNT) (hj : j ≠ s.s_active_vt) :
    vterm_switch s ((j.val : Nat) : Int) =
      { s with
        vterms := Function.update s.vterms s.s_active_vt
          { s.vterms s.s_active_vt with
            storage := copy_cells (s.vterms s.s_active_vt).storage s.s_iram_buffer },
        s_iram_buffer := copy_cells s.s_iram_buffer (s.vterms j).storage,
        s_active_vt := j,
        switch_events := s.switch_events ++ [j.val] } := by
  unfold vterm_switch
  rw [dif_neg (by have := j.isLt; simp only [VTERM_COUNT] at *; omega)]
  rw [dif_neg (by intro hEq; exact hj (Fin.ext (by exact_mod_cast hEq)))]
  simp only [vtIndex_val]

/-- Copy-out then copy-in restores the fast-memory grid exactly. -/
theorem copy_cells_roundtrip_active (iram0 si sj : Int → VtCell) :
    copy_cells (copy_cells iram0 sj) (copy_cells si iram0) = iram0 := by
  funext m
  simp only [copy_cells]
  split_ifs <;> rfl

/-- Copying a grid's own round-tripped image back over it is the identity. -/
theorem copy_cells_roundtrip_other (sj iram0 : Int → VtCell) :
    copy_cells sj (copy_cells iram0 sj) = sj := by
  funext m
  simp only [copy_cells]
  split_ifs <;> rfl

/-- C2: switching away to a distinct session `j` and back restores the
originally active session's entire interpreter view (grid, cursor,
attribute, parser state) exactly — the copy-out/copy-in through the
backing store is lossless — independently preserves `j`'s view, and makes
every subsequent write to the original session behave exactly as if no
switch had occurred. -/
theorem claim_C2_switch_roundtrip (s : Sys) (j : Fin VTERM_COUNT)
    (hj : j ≠ s.s_active_vt) :
    sessionVt (vterm_switch (vterm_switch s ((j.val : Nat) : Int))
        (((s.s_active_vt).val : Nat) : Int)) s.s_active_vt =
      sessionVt s s.s_active_vt ∧
    sessionVt (vterm_switch (vterm_switch s ((j.val : Nat) : Int))
        (((s.s_active_vt).val : Nat) : Int)) j =
      sessionVt s j ∧
    ∀ data : List Nat,
      vterm_write1 (sessionVt (vterm_switch (vterm_switch s ((j.val : Nat) : Int))
          (((s.s_active_vt).val : Nat) : Int)) s.s_active_vt) data =
        vterm_write1 (sessionVt s s.s_active_vt) data := by
  have hij : s.s_active_vt ≠ j := Ne.symm hj
  have ha : sessionVt (vterm_switch (vterm_switch s ((j.val : Nat) : Int))
      (((s.s_active_vt).val : Nat) : Int)) s.s_active_vt = sessionVt s s.s_active_vt := by
    rw [vterm_switch_spec s j hj,
      vterm_switch_spec _ s.s_active_vt (fun h => hj h.symm)]
    simp only [sessionVt, cellsOf, Function.update_noteq hij, Function.update_same,
      eq_self_iff_true, ite_true]
    rw [copy_cells_roundtrip_active]
  have hb : sessionVt (vterm_switch (vterm_switch s ((j.val : Nat) : Int))
      (((s.s_active_vt).val : Nat) : Int)) j = sessionVt s j := by
    rw [vterm_switch_spec s j hj,
      vterm_switch_spec _ s.s_active_vt (fun h => hj h.symm)]
    simp only [sessionVt, cellsOf, Function.update_noteq hj, Function.update_same,
      hj, ite_false]
    rw [copy_cells_roundtrip_other]
  exact ⟨ha, hb, fun data => by rw [ha]⟩

/-- Witness for C2: the concrete round trip 0 → 1 → 0 on the blank
four-session system. -/
theorem claim_C2_switch_roundtrip_witness :
    ((1 : Fin VTERM_COUNT) ≠ sysFixture.s_active_vt) ∧
    sessionVt (vterm_switch (vterm_switch sysFixture (((1 : Fin VTERM_COUNT).val : Nat) : Int))
        (((sysFixture.s_active_vt).val : Nat) : Int)) sysFixture.s_active_vt =
      sessionVt sysFixture sysFixture.s_active_vt ∧
    sessionVt (vterm_switch (vterm_switch sysFixture (((1 : Fin VTERM_COUNT).val : Nat) : Int))
        (((sysFixture.s_active_vt).val : Nat) : Int)) (1 : Fin VTERM_COUNT) =
      sessionVt sysFixture (1 : Fin VTERM_COUNT) ∧
    ∀ data : List Nat,
      vterm_write1 (sessionVt (vterm_switch (vterm_switch sysFixture
          (((1 : Fin VTERM_COUNT).val : Nat) : Int))
          (((sysFixture.s_active_vt).val : Nat) : Int)) sysFixture.s_active_vt) data =
        vterm_write1 (sessionVt sysFixture sysFixture.s_active_vt) data :=
  ⟨by decide,
   (claim_C2_switch_roundtrip sysFixture 1 (by decide)).1,
   (claim_C2_switch_roundtrip sysFixture 1 (by decide)).2.1,
   (claim_C2_switch_roundtrip sysFixture 1 (by decide)).2.2⟩

/-- C6 counterexample: the `bright` flag of `vterm_apply_sgr` is a local
variable reset to 0 on every call, so in the split-sequence interleaving
`ESC [ 1 m` then `ESC [ 31 m` the second call combines red with a cleared
flag: the attribute ends at 1 (plain red), not at the claimed
bright-red `1 ||| VTERM_BRIGHT`. -/
theorem claim_C6_sgr_bright_cex :
    (vterm_putchar_many vtFixture [27, 91, 49, 109, 27, 91, 51, 49, 109]).1.current_attr = 1 ∧
    VTERM_ATTR_FG 1 &&& VTERM_BRIGHT = 0 ∧
    (1 : Nat) ≠ VTERM_ATTR (1 ||| VTERM_BRIGHT) VTERM_BLACK := by
  decide

/-- C6 (amended): code 1 ORs the bright flag onto the current foreground
and a code 30–37 sets the foreground combined with the *current call's*
bright flag.  Consequently the flag combines with a colour in either order
within one SGR sequence (`1;3X` and `3X;1`), and across separate sequences
in the colour-then-1 order (in particular the spec's `ESC [ 31 m` then
`ESC [ 1 m` example does produce bright red on black) — but not in the
1-then-colour order across sequences, where the per-call flag has been
reset (the counterexample). -/
theorem claim_C6_sgr_bright (attr : Nat) (hattr : attr < 256)
    (d : Nat) (hd : d < 56) (hd1 : 48 ≤ d) :
    vterm_apply_sgr attr [49, 59, 51, d] =
      VTERM_ATTR ((d - 48) ||| VTERM_BRIGHT) (VTERM_ATTR_BG attr) ∧
    vterm_apply_sgr attr [51, d, 59, 49] =
      VTERM_ATTR ((d - 48) ||| VTERM_BRIGHT) (VTERM_ATTR_BG attr) ∧
    vterm_apply_sgr (vterm_apply_sgr attr [51, d]) [49] =
      VTERM_ATTR ((d - 48) ||| VTERM_BRIGHT) (VTERM_ATTR_BG attr) ∧
    (vterm_putchar_many vtFixture [27, 91, 51, 49, 109, 27, 91, 49, 109, 65]).1.cells 0 =
      ⟨65, VTERM_ATTR (1 ||| VTERM_BRIGHT) VTERM_BLACK⟩ := by
  have h123 : ∀ a, a < 256 → ∀ e, e < 56 → 48 ≤ e →
      (vterm_apply_sgr a [49, 59, 51, e] =
        VTERM_ATTR ((e - 48) ||| VTERM_BRIGHT) (VTERM_ATTR_BG a) ∧
       vterm_apply_sgr a [51, e, 59, 49] =
        VTERM_ATTR ((e - 48) ||| VTERM_BRIGHT) (VTERM_ATTR_BG a) ∧
       vterm_apply_sgr (vterm_apply_sgr a [51, e]) [49] =
        VTERM_ATTR ((e - 48) ||| VTERM_BRIGHT) (VTERM_ATTR_BG a)) := by
    decide
  exact ⟨(h123 attr hattr d hd hd1).1, (h123 attr hattr d hd hd1).2.1,
    (h123 attr hattr d hd hd1).2.2, by decide⟩

/-- Witness for C6 at the default attribute and the digit byte of `31`. -/
theorem claim_C6_sgr_bright_witness :
    (7 : Nat) < 256 ∧ (49 : Nat) < 56 ∧ (48 : Nat) ≤ 49 ∧
    (vterm_apply_sgr 7 [49, 59, 51, 49] =
        VTERM_ATTR ((49 - 48) ||| VTERM_BRIGHT) (VTERM_ATTR_BG 7) ∧
      vterm_apply_sgr 7 [51, 49, 59, 49] =
        VTERM_ATTR ((49 - 48) ||| VTERM_BRIGHT) (VTERM_ATTR_BG 7) ∧
      vterm_apply_sgr (vterm_apply_sgr 7 [51, 49]) [49] =
        VTERM_ATTR ((49 - 48) ||| VTERM_BRIGHT) (VTERM_ATTR_BG 7) ∧
      (vterm_putchar_many vtFixture [27, 91, 51, 49, 109, 27, 91, 49, 109, 65]).1.cells 0 =
        ⟨65, VTERM_ATTR (1 ||| VTERM_BRIGHT) VTERM_BLACK⟩) :=
  ⟨by decide, by decide, by decide,
   claim_C6_sgr_bright 7 (by decide) 49 (by decide) (by decide)⟩

/-! ### Decimal round trip: `snprintf("%d")` output through the `%d` parser -/

theorem decimal_bytes_go_digits (fuel : Nat) : ∀ n, n < fuel →
    ∀ x ∈ decimal_bytes_go fuel n, 48 ≤ x ∧ x ≤ 57 := by
  induction fuel with
  | zero => intro n h; exact absurd h (Nat.not_lt_zero n)
  | succ fuel ih =>
    intro n h x hx
    simp only [decimal_bytes_go] at hx
    by_cases h10 : n < 10
    · rw [if_pos h10] at hx
      simp only [List.mem_singleton] at hx
      omega
    · rw [if_neg h10] at hx
      rcases List.mem_append.1 hx with h1 | h2
      · exact ih (n / 10) (by omega) x h1
      · simp only [List.mem_singleton] at h2
        omega

theorem decimal_bytes_go_cons (fuel : Nat) : ∀ n, n < fuel →
    ∃ hd tl, decimal_bytes_go fuel n = hd :: tl ∧ 48 ≤ hd ∧ hd ≤ 57 := by
  induction fuel with
  | zero => intro n h; exact absurd h (Nat.not_lt_zero n)
  | succ fuel ih =>
    intro n h
    simp only [decimal_bytes_go]
    by_cases h10 : n < 10
    · rw [if_pos h10]
      exact ⟨48 + n, [], rfl, by omega, by omega⟩
    · rw [if_neg h10]
      obtain ⟨hd, tl, heq, h1, h2⟩ := ih (n / 10) (by omega)
      exact ⟨hd, tl ++ [48 + n % 10], by rw [heq]; rfl, h1, h2⟩

theorem read_digits_decimal_go (fuel : Nat) : ∀ n acc rest, n < fuel →
    read_digits acc (decimal_bytes_go fuel n ++ rest) =
      read_digits (acc * 10 ^ (decimal_bytes_go fuel n).length + n) rest := by
  induction fuel with
  | zero => intro n acc rest h; exact absurd h (Nat.not_lt_zero n)
  | succ fuel ih =>
    intro n acc rest h
    simp only [decimal_bytes_go]
    by_cases h10 : n < 10
    · rw [if_pos h10]
      show read_digits acc ((48 + n) :: rest) = _
      simp only [read_digits]
      rw [if_pos (by omega)]
      congr 1
      simp only [List.length_cons, List.length_nil, pow_one]
      omega
    · rw [if_neg h10]
      rw [List.append_assoc, List.singleton_append]
      rw [ih (n / 10) acc ((48 + n % 10) :: rest) (by omega)]
      simp only [read_digits]
      rw [if_pos (by omega)]
      congr 1
      rw [List.length_append, List.length_singleton, pow_succ, ← Nat.mul_assoc]
      omega

theorem read_int_decimal (n : Nat) (rest : List Nat)
    (hstop : rest = [] ∨ ∃ t, rest = 59 :: t) :
    read_int (decimal_bytes_nat n ++ rest) = some ((n : Int), rest) := by
  obtain ⟨hd, tl, heq, hd1, hd2⟩ := decimal_bytes_go_cons (n + 1) n (by omega)
  have hdec : decimal_bytes_nat n ++ rest = hd :: (tl ++ rest) := by
    simp only [decimal_bytes_nat, heq, List.cons_append]
  rw [hdec]
  unfold read_int
  rw [show skip_ws (hd :: (tl ++ rest)) = hd :: (tl ++ rest) from by
    simp only [skip_ws]; rw [if_neg (by omega)]]
  simp only [read_int_go]
  rw [if_neg (by omega)]
  rw [if_pos ⟨hd1, hd2⟩]
  rw [show hd :: (tl ++ rest) = decimal_bytes_go (n + 1) n ++ rest from by
    rw [heq]; rfl]
  rw [read_digits_decimal_go (n + 1) n 0 rest (by omega)]
  rw [Nat.zero_mul, Nat.zero_add]
  rcases hstop with h | ⟨t, h⟩
  · subst h
    simp only [read_digits]
  · subst h
    simp only [read_digits]
    rw [if_neg (by omega)]

theorem scan_row_col_decimal (r c : Nat) :
    scan_row_col (decimal_bytes_nat r ++ 59 :: decimal_bytes_nat c) =
      ((r : Int), (c : Int)) := by
  unfold scan_row_col
  rw [read_int_decimal r (59 :: decimal_bytes_nat c) (Or.inr ⟨_, rfl⟩)]
  simp only [Option.map_some', Option.getD_some, scan_second, List.headD_cons,
    List.tail_cons, if_pos]
  rw [show decimal_bytes_nat c = decimal_bytes_nat c ++ [] from (List.append_nil _).symm,
    read_int_decimal c [] (Or.inl rfl)]
  simp only [Option.map_some', Option.getD_some]

/-- A digit or `';'` in the CSI state is buffered (below the 31-byte cap). -/
theorem handle_escape_csi_param (vt : Vt) (x : Nat) (h2 : vt.escape_state = 2)
    (hx1 : 48 ≤ x) (hx2 : x ≤ 59) (hlt : vt.escape_buf.length < 31) :
    vterm_handle_escape vt x = ⟨true, { vt with escape_buf := vt.escape_buf ++ [x] }, []⟩ := by
  unfold vterm_handle_escape
  rw [if_neg (show ¬vt.escape_state = 0 from by omega)]
  rw [if_neg (show ¬vt.escape_state = 1 from by omega)]
  rw [if_pos hlt]
  rw [if_neg (show ¬((65 ≤ x ∧ x ≤ 90) ∨ (97 ≤ x ∧ x ≤ 122)) from by omega)]

/-- Feeding parameter bytes (digits and `';'`) to the CSI state just
appends them to the escape buffer while the 31-byte cap is not hit. -/
theorem putchar_many_csi_accum (bs : List Nat) : ∀ vt : Vt, vt.escape_state = 2 →
    (∀ x ∈ bs, 48 ≤ x ∧ x ≤ 59) → vt.escape_buf.length + bs.length ≤ 31 →
    vterm_putchar_many vt bs = ({ vt with escape_buf := vt.escape_buf ++ bs }, []) := by
  induction bs with
  | nil =>
    intro vt h2 hall hfit
    simp only [vterm_putchar_many, List.append_nil]
  | cons x bs ih =>
    intro vt h2 hall hfit
    have hx := hall x (List.mem_cons_self x bs)
    simp only [List.length_cons] at hfit
    have hh := handle_escape_csi_param vt x h2 hx.1 hx.2 (by omega)
    have hstep : vterm_putchar1 vt x = ({ vt with escape_buf := vt.escape_buf ++ [x] }, []) := by
      simp [vterm_putchar1, hh]
    simp only [vterm_putchar_many]
    rw [hstep]
    dsimp only
    rw [ih ({ vt with escape_buf := vt.escape_buf ++ [x] }) h2
      (fun y hy => hall y (List.mem_cons_of_mem x hy))
      (by simp only [List.length_append, List.length_singleton]; omega)]
    simp only [List.append_assoc, List.singleton_append, List.append_nil]

/-- Processing a concatenation is processing the pieces in sequence. -/
theorem vterm_putchar_many_append (a : List Nat) : ∀ (vt : Vt) (b : List Nat),
    vterm_putchar_many vt (a ++ b) =
      ((vterm_putchar_many (vterm_putchar_many vt a).1 b).1,
        (vterm_putchar_many vt a).2 ++ (vterm_putchar_many (vterm_putchar_many vt a).1 b).2) := by
  induction a with
  | nil => intro vt b; simp only [List.nil_append, vterm_putchar_many]
  | cons x a ih =>
    intro vt b
    simp only [List.cons_append, vterm_putchar_many, List.append_eq]
    rw [ih]
    simp only [List.append_assoc]

theorem decimal_bytes_go_singleton (fuel n x : Nat) (h : n < fuel)
    (heq : decimal_bytes_go fuel n = [x]) : x = 48 + n ∧ n < 10 := by
  cases fuel with
  | zero => exact absurd h (Nat.not_lt_zero n)
  | succ fuel =>
    simp only [decimal_bytes_go] at heq
    by_cases h10 : n < 10
    · rw [if_pos h10] at heq
      simp only [List.cons.injEq, and_true] at heq
      exact ⟨heq.symm, h10⟩
    · rw [if_neg h10] at heq
      obtain ⟨hd, tl, hcons, h1, h2⟩ := decimal_bytes_go_cons fuel (n / 10) (by omega)
      rw [hcons] at heq
      have hl := congrArg List.length heq
      simp only [List.cons_append, List.length_cons, List.length_append,
        List.length_nil] at hl
      omega


theorem vterm_csi_dispatch_H (vt : Vt) (params : List Nat) (h63 : ¬params.headD 0 = 63) :
    vterm_csi_dispatch vt params 72 = (csi_cursor_pos vt params, []) := by
  unfold vterm_csi_dispatch
  rw [if_neg h63]
  rw [if_neg (show ¬(72 : Nat) = 109 from by omega)]
  rw [if_neg (show ¬(72 : Nat) = 74 from by omega)]
  rw [if_pos (show (72 : Nat) = 72 ∨ (72 : Nat) = 102 from Or.inl rfl)]

/-- A CSI final byte in `A..Z` dispatches on the buffered parameters (final
byte stripped) and resets the escape parser. -/
theorem handle_escape_final (vt : Vt) (x : Nat) (h2 : vt.escape_state = 2)
    (hlt : vt.escape_buf.length < 31) (hterm : 65 ≤ x ∧ x ≤ 90) :
    vterm_handle_escape vt x =
      ⟨true, { (vterm_csi_dispatch vt vt.escape_buf x).1 with
                escape_state := 0, escape_buf := [] },
        (vterm_csi_dispatch vt vt.escape_buf x).2⟩ := by
  unfold vterm_handle_escape
  rw [if_neg (show ¬vt.escape_state = 0 from by omega)]
  rw [if_neg (show ¬vt.escape_state = 1 from by omega)]
  rw [if_pos hlt]
  rw [if_pos (Or.inl hterm)]
  have hdrop : (vt.escape_buf ++ [x]).dropLast = vt.escape_buf := by simp
  rw [hdrop]

theorem putchar1_final (vt : Vt) (x : Nat) (h2 : vt.escape_state = 2)
    (hlt : vt.escape_buf.length < 31) (hterm : 65 ≤ x ∧ x ≤ 90) :
    vterm_putchar1 vt x =
      ({ (vterm_csi_dispatch vt vt.escape_buf x).1 with
          escape_state := 0, escape_buf := [] },
        (vterm_csi_dispatch vt vt.escape_buf x).2) := by
  have hh := handle_escape_final vt x h2 hlt hterm
  simp only [vterm_putchar1, hh]
  rw [if_pos trivial]

/-- The CSI final byte `H` with a buffered `r;c` parameter string moves the
cursor to the clamped zero-based position and resets the escape parser. -/
theorem handle_escape_H (vt : Vt) (r c : Nat) (hr : 1 ≤ r) (hc : 1 ≤ c)
    (h2 : vt.escape_state = 2)
    (hbuf : vt.escape_buf = decimal_bytes_nat r ++ 59 :: decimal_bytes_nat c)
    (hlen : (decimal_bytes_nat r).length + (decimal_bytes_nat c).length ≤ 29) :
    vterm_putchar1 vt 72 =
      ({ vt with cursor_x := ((min (c - 1) (VTERM_COLS - 1) : Nat) : Int),
                 cursor_y := ((min (r - 1) (VTERM_ROWS - 1) : Nat) : Int),
                 escape_state := 0, escape_buf := [] }, []) := by
  obtain ⟨hd, tl, hdr, hhd1, hhd2⟩ := decimal_bytes_go_cons (r + 1) r (by omega)
  have hdrnat : decimal_bytes_nat r = hd :: tl := by
    simp only [decimal_bytes_nat, hdr]
  have hplen : vt.escape_buf.length ≤ 30 := by
    rw [hbuf]
    simp only [List.length_append, List.length_cons]
    omega
  have h63 : ¬(decimal_bytes_nat r ++ 59 :: decimal_bytes_nat c).headD 0 = 63 := by
    rw [hdrnat]
    simp only [List.cons_append, List.headD_cons]
    omega
  rw [putchar1_final vt 72 h2 (by omega) (by omega)]
  rw [hbuf]
  rw [vterm_csi_dispatch_H vt _ h63]
  dsimp only
  simp only [csi_cursor_pos]
  by_cases hp : decimal_bytes_nat r ++ 59 :: decimal_bytes_nat c = [] ∨
      decimal_bytes_nat r ++ 59 :: decimal_bytes_nat c = [49, 59, 49]
  · rw [if_pos hp]
    obtain ⟨hd2, tl2, hdc, hg1, hg2⟩ := decimal_bytes_go_cons (c + 1) c (by omega)
    have hdcnat : decimal_bytes_nat c = hd2 :: tl2 := by
      simp only [decimal_bytes_nat, hdc]
    rcases hp with hnil | h149
    · exfalso
      rw [hdrnat] at hnil
      simp at hnil
    · have hlen3 := congrArg List.length h149
      rw [hdrnat, hdcnat] at hlen3 h149
      simp only [List.cons_append, List.length_cons, List.length_append,
        List.length_nil] at hlen3
      have htl1 : tl = [] := by
        rw [← List.length_eq_zero]
        omega
      have htl2 : tl2 = [] := by
        rw [← List.length_eq_zero]
        omega
      subst htl1
      subst htl2
      simp only [List.cons_append, List.nil_append, List.cons.injEq, and_true] at h149
      have hr1 : (49 : Nat) = 48 + r ∧ r < 10 :=
        decimal_bytes_go_singleton (r + 1) r 49 (by omega) (by rw [hdr, h149.1])
      have hc1 : (49 : Nat) = 48 + c ∧ c < 10 :=
        decimal_bytes_go_singleton (c + 1) c 49 (by omega) (by rw [hdc, h149.2.2])
      have hre : r = 1 := by omega
      have hce : c = 1 := by omega
      subst hre
      subst hce
      norm_num
  · rw [if_neg hp]
    rw [scan_row_col_decimal r c]
    dsimp only
    rw [if_pos (show (0 : Int) < ((r : Nat) : Int) from by exact_mod_cast hr)]
    rw [if_pos (show (0 : Int) < ((c : Nat) : Int) from by exact_mod_cast hc)]
    simp only [Prod.mk.injEq, Vt.mk.injEq, eq_self_iff_true, true_and, and_true]
    refine ⟨?_, ?_⟩
    · simp only [VTERM_COLS]
      split_ifs <;> omega
    · simp only [VTERM_ROWS]
      split_ifs <;> omega

/-- A step whose byte is consumed silently just advances the state. -/
theorem pm_step (vt vt' : Vt) (x : Nat) (rest : List Nat)
    (h : vterm_putchar1 vt x = (vt', [])) :
    vterm_putchar_many vt (x :: rest) = vterm_putchar_many vt' rest := by
  simp only [vterm_putchar_many, h]
  rfl

/-- `ESC [ r ; c H` from the ground state: the whole sequence is consumed
and the cursor moves to the clamped zero-based position. -/
theorem esc_H_sets_cursor (vt : Vt) (r c : Nat) (hr : 1 ≤ r) (hc : 1 ≤ c)
    (hlen : (decimal_bytes_nat r).length + (decimal_bytes_nat c).length ≤ 29)
    (hes : vt.escape_state = 0) :
    vterm_putchar_many vt
        (27 :: 91 :: (decimal_bytes_nat r ++ [59] ++ decimal_bytes_nat c ++ [72])) =
      ({ vt with cursor_x := ((min (c - 1) (VTERM_COLS - 1) : Nat) : Int),
                 cursor_y := ((min (r - 1) (VTERM_ROWS - 1) : Nat) : Int),
                 escape_state := 0, escape_buf := [] }, []) := by
  have hparams : ∀ x ∈ decimal_bytes_nat r ++ 59 :: decimal_bytes_nat c, 48 ≤ x ∧ x ≤ 59 := by
    intro x hx
    rcases List.mem_append.1 hx with h1 | h2
    · have := decimal_bytes_go_digits (r + 1) r (by omega) x
        (by simpa [decimal_bytes_nat] using h1)
      omega
    · rcases List.mem_cons.1 h2 with rfl | h3
      · omega
      · have := decimal_bytes_go_digits (c + 1) c (by omega) x
          (by simpa [decimal_bytes_nat] using h3)
        omega
  have h27 : vterm_putchar1 vt 27 = ({ vt with escape_state := 1, escape_buf := [] }, []) := by
    simp only [vterm_putchar1, vterm_handle_escape]
    rw [if_pos hes]
    rfl
  rw [pm_step _ _ _ _ h27]
  rw [pm_step _ _ _ _ (show vterm_putchar1 { vt with escape_state := 1, escape_buf := [] } 91
      = ({ vt with escape_state := 2, escape_buf := [] }, []) from rfl)]
  rw [show decimal_bytes_nat r ++ [59] ++ decimal_bytes_nat c ++ [72]
      = (decimal_bytes_nat r ++ 59 :: decimal_bytes_nat c) ++ [72] from by
    simp [List.append_assoc]]
  rw [vterm_putchar_many_append (decimal_bytes_nat r ++ 59 :: decimal_bytes_nat c)]
  rw [putchar_many_csi_accum (decimal_bytes_nat r ++ 59 :: decimal_bytes_nat c) _ rfl hparams
    (by simp only [List.length_nil, List.length_append, List.length_cons]; omega)]
  simp only [List.nil_append]
  rw [pm_step _ _ _ _ (handle_escape_H
      { vt with escape_state := 2, escape_buf := decimal_bytes_nat r ++ 59 :: decimal_bytes_nat c }
      r c hr hc rfl rfl hlen)]
  simp only [vterm_putchar_many, List.append_nil]

/-- C7 (amended): for `r, c ≥ 1` whose decimal renderings fit the 31-byte
escape parameter buffer together with the separator and final byte
(digit count sum ≤ 29), `ESC [ r ; c H` moves the cursor to the zero-based
position `(c-1, r-1)` clamped into the grid, and then writing one
printable byte places it in exactly that cell (excluding the
bottom-right corner, where the write itself eagerly scrolls the grid one
row up). -/
theorem claim_C7_cursor_position (vt : Vt) (r c b : Nat) (hr : 1 ≤ r) (hc : 1 ≤ c)
    (hlen : (decimal_bytes_nat r).length + (decimal_bytes_nat c).length ≤ 29)
    (hes : vt.escape_state = 0) (hb1 : 32 ≤ b) (hb2 : b ≤ 126)
    (hcorner : ¬(VTERM_COLS ≤ c ∧ VTERM_ROWS ≤ r)) :
    (vterm_putchar_many vt
        (27 :: 91 :: (decimal_bytes_nat r ++ [59] ++ decimal_bytes_nat c ++ [72]))).1.cursor_x
        = ((min (c - 1) (VTERM_COLS - 1) : Nat) : Int) ∧
    (vterm_putchar_many vt
        (27 :: 91 :: (decimal_bytes_nat r ++ [59] ++ decimal_bytes_nat c ++ [72]))).1.cursor_y
        = ((min (r - 1) (VTERM_ROWS - 1) : Nat) : Int) ∧
    (vterm_putchar_many vt
        (27 :: 91 :: (decimal_bytes_nat r ++ [59] ++ decimal_bytes_nat c ++ [72, b]))).1.cells
        ((min (r - 1) (VTERM_ROWS - 1) * VTERM_COLS + min (c - 1) (VTERM_COLS - 1) : Nat) : Int)
      = ⟨b, vt.current_attr⟩ := by
  have hmain := esc_H_sets_cursor vt r c hr hc hlen hes
  refine ⟨by rw [hmain], by rw [hmain], ?_⟩
  rw [show (27 : Nat) :: 91 :: (decimal_bytes_nat r ++ [59] ++ decimal_bytes_nat c ++ [72, b])
      = (27 :: 91 :: (decimal_bytes_nat r ++ [59] ++ decimal_bytes_nat c ++ [72])) ++ [b] from by
    simp [List.append_assoc]]
  rw [vterm_putchar_many_append]
  rw [hmain]
  dsimp only
  rcases vterm_putchar1_printable_cases
      ({ vt with cursor_x := ((min (c - 1) (VTERM_COLS - 1) : Nat) : Int),
                 cursor_y := ((min (r - 1) (VTERM_ROWS - 1) : Nat) : Int),
                 escape_state := 0, escape_buf := [] })
      b (min (c - 1) (VTERM_COLS - 1)) (min (r - 1) (VTERM_ROWS - 1))
      rfl rfl (by simp only [VTERM_COLS]; omega) (by simp only [VTERM_ROWS]; omega)
      rfl hb1 hb2 with ⟨hw, hstep⟩ | ⟨hw1, hw2, hstep⟩ | ⟨hw1, hw2, hstep⟩
  · simp only [vterm_putchar_many, hstep]
    simp [writeCell]
  · simp only [vterm_putchar_many, hstep]
    simp [writeCell]
  · exfalso
    simp only [VTERM_COLS, VTERM_ROWS] at hw1 hw2 hcorner
    omega

/-- C7 counterexample to the unrestricted claim: with `r = 10^30` the 31
digit bytes fill the escape parameter buffer, the separator and the column
digits are dropped, and the stored final byte strips one more digit, so
the parsed position is row `10^29` (clamped to the last row) with a
defaulted column of 1: the character lands at column 0, not at the claimed
column `c - 1 = 1`. -/
theorem claim_C7_cursor_position_cex :
    decimal_bytes_nat (10 ^ 30) = 49 :: List.replicate 30 48 ∧
    decimal_bytes_nat 2 = [50] ∧
    (vterm_putchar_many vtFixture
        (27 :: 91 :: ((49 :: List.replicate 30 48) ++ [59] ++ [50] ++ [72, 98]))).1.cells
        ((36 * 128 + 1 : Nat) : Int) = blankVtCell ∧
    (vterm_putchar_many vtFixture
        (27 :: 91 :: ((49 :: List.replicate 30 48) ++ [59] ++ [50] ++ [72, 98]))).1.cells
        ((36 * 128 : Nat) : Int) = ⟨98, VTERM_DEFAULT_ATTR⟩ ∧
    blankVtCell ≠ (⟨98, VTERM_DEFAULT_ATTR⟩ : VtCell) := by
  decide

/-- Witness for C7 at `r = 5`, `c = 7`, byte `'X'`. -/
theorem claim_C7_cursor_position_witness :
    (1 ≤ 5 ∧ 1 ≤ 7 ∧
      (decimal_bytes_nat 5).length + (decimal_bytes_nat 7).length ≤ 29 ∧
      vtFixture.escape_state = 0 ∧ 32 ≤ 88 ∧ 88 ≤ 126 ∧
      ¬(VTERM_COLS ≤ 7 ∧ VTERM_ROWS ≤ 5)) ∧
    ((vterm_putchar_many vtFixture
        (27 :: 91 :: (decimal_bytes_nat 5 ++ [59] ++ decimal_bytes_nat 7 ++ [72]))).1.cursor_x
        = ((min (7 - 1) (VTERM_COLS - 1) : Nat) : Int) ∧
      (vterm_putchar_many vtFixture
        (27 :: 91 :: (decimal_bytes_nat 5 ++ [59] ++ decimal_bytes_nat 7 ++ [72]))).1.cursor_y
        = ((min (5 - 1) (VTERM_ROWS - 1) : Nat) : Int) ∧
      (vterm_putchar_many vtFixture
        (27 :: 91 :: (decimal_bytes_nat 5 ++ [59] ++ decimal_bytes_nat 7 ++ [72, 88]))).1.cells
        ((min (5 - 1) (VTERM_ROWS - 1) * VTERM_COLS + min (7 - 1) (VTERM_COLS - 1) : Nat) : Int)
      = ⟨88, vtFixture.current_attr⟩) :=
  ⟨⟨by decide, by decide, by decide, rfl, by decide, by decide, by decide⟩,
   claim_C7_cursor_position vtFixture 5 7 88 (by decide) (by decide) (by decide) rfl
     (by decide) (by decide) (by decide)⟩

/-- `vterm_send_input` touches only input queues: no render-callback
invocation, no `dirty` change. -/
theorem vterm_send_input_frame (s : Sys) (vt_id : Int) (c : Nat) :
    (vterm_send_input s vt_id c).render_events = s.render_events ∧
    ∀ j : Fin VTERM_COUNT,
      ((vterm_send_input s vt_id c).vterms j).dirty = (s.vterms j).dirty := by
  unfold vterm_send_input
  split_ifs with h
  · refine ⟨rfl, ?_⟩
    intro j
    by_cases hj : j = vtIndex vt_id
    · subst hj
      simp only [Function.update_same]
    · simp only [Function.update_noteq hj]
  · exact ⟨rfl, fun j => rfl⟩

/-- Routing any number of response bytes to input queues also invokes no
render callback and changes no `dirty` flag. -/
theorem foldl_send_frame (bs : List Nat) : ∀ s : Sys,
    ((bs.foldl (fun st b => vterm_send_input st ((st.s_active_vt.val : Nat) : Int) b)
        s).render_events = s.render_events) ∧
    ∀ j : Fin VTERM_COUNT,
      ((bs.foldl (fun st b => vterm_send_input st ((st.s_active_vt.val : Nat) : Int) b)
          s).vterms j).dirty = (s.vterms j).dirty := by
  induction bs with
  | nil => intro s; exact ⟨rfl, fun j => rfl⟩
  | cons x bs ih =>
    intro s
    simp only [List.foldl_cons]
    constructor
    · rw [(ih _).1, (vterm_send_input_frame s _ x).1]
    · intro j
      rw [(ih _).2 j, (vterm_send_input_frame s _ x).2 j]

/-- C10 (amended): `vterm_write` and `vterm_putchar` never invoke the
registered render-notification callback — in this variant the callback is
registered but no call site exists; writes to a valid session instead mark
it `dirty` for the renderer to poll. -/
theorem claim_C10_render_callback (s : Sys) (vt_id : Int) (data : List Nat) (c : Nat) :
    (vterm_write s vt_id data).render_events = s.render_events ∧
    (vterm_putchar s vt_id c).render_events = s.render_events ∧
    (0 ≤ vt_id ∧ vt_id < (VTERM_COUNT : Int) →
      ((vterm_write s vt_id data).vterms (vtIndex vt_id)).dirty = true ∧
      ((vterm_putchar s vt_id c).vterms (vtIndex vt_id)).dirty = true) := by
  unfold vterm_write vterm_putchar
  split_ifs with h
  · refine ⟨?_, ?_, fun _ => ⟨?_, ?_⟩⟩
    · rw [(foldl_send_frame _ _).1]
      simp only [putVt]
    · rw [(foldl_send_frame _ _).1]
      simp only [putVt]
    · rw [(foldl_send_frame _ _).2 _]
      simp only [putVt, Function.update_same]
    · rw [(foldl_send_frame _ _).2 _]
      simp only [putVt, Function.update_same]
  · exact ⟨rfl, rfl, fun hvalid => absurd hvalid h⟩

/-- C10 counterexample to the claim as stated: a write that does change the
active session's visible content (cell 0 becomes `'A'`) leaves the render
event log empty — the callback is not invoked. -/
theorem claim_C10_render_callback_cex :
    cellsOf (vterm_write sysFixture 0 [65]) (vtIndex 0) 0 ≠ cellsOf sysFixture (vtIndex 0) 0 ∧
    (vterm_write sysFixture 0 [65]).render_events = [] ∧
    sysFixture.render_events = [] := by
  decide

/-- Witness for C10 at a concrete system, write and putchar. -/
theorem claim_C10_render_callback_witness :
    (vterm_write sysFixture 0 [65]).render_events = sysFixture.render_events ∧
    (vterm_putchar sysFixture 0 66).render_events = sysFixture.render_events ∧
    ((0 : Int) ≤ 0 ∧ (0 : Int) < (VTERM_COUNT : Int)) ∧
    ((vterm_write sysFixture 0 [65]).vterms (vtIndex 0)).dirty = true ∧
    ((vterm_putchar sysFixture 0 66).vterms (vtIndex 0)).dirty = true :=
  ⟨(claim_C10_render_callback sysFixture 0 [65] 66).1,
   (claim_C10_render_callback sysFixture 0 [65] 66).2.1,
   ⟨by decide, by decide⟩,
   ((claim_C10_render_callback sysFixture 0 [65] 66).2.2 ⟨by decide, by decide⟩).1,
   ((claim_C10_render_callback sysFixture 0 [65] 66).2.2 ⟨by decide, by decide⟩).2⟩

theorem vterm_input_feed_fresh (T t : Nat) (s : Sys) (c : Nat)
    (h : ¬(0 < s.s_esc_buf.length ∧ T < t - s.s_esc_start)) :
    vterm_input_feed T t s c = vterm_input_feed_body T t s c := by
  unfold vterm_input_feed
  rw [if_neg h]

theorem vterm_input_feed_stale (T t : Nat) (s : Sys) (c : Nat)
    (h : 0 < s.s_esc_buf.length ∧ T < t - s.s_esc_start) :
    vterm_input_feed T t s c = vterm_input_feed_body T t (flush_input_buffer s) c := by
  unfold vterm_input_feed
  rw [if_pos h]

theorem feed_start_step (T t : Nat) (s : Sys) (hbuf : s.s_esc_buf = []) :
    vterm_input_feed T t s 27 = ({ s with s_esc_buf := [27], s_esc_start := t }, 0) := by
  rw [vterm_input_feed_fresh T t s 27 (by rw [hbuf]; simp)]
  unfold vterm_input_feed_body
  rw [if_pos ⟨by rw [hbuf]; rfl, rfl⟩]

theorem feed_buffering_step (T t : Nat) (s : Sys) (c : Nat) (newbuf : List Nat)
    (hstart : s.s_esc_start = t)
    (hlen : 0 < s.s_esc_buf.length) (hcap : s.s_esc_buf.length < 15)
    (hbufe : s.s_esc_buf ++ [c] = newbuf)
    (hm : match_vt_hotkey newbuf = -1)
    (hck : could_be_hotkey newbuf = true)
    (hne27 : ¬(s.s_esc_buf.length = 0 ∧ c = 27)) :
    vterm_input_feed T t s c = ({ s with s_esc_buf := newbuf }, 0) := by
  rw [vterm_input_feed_fresh T t s c (by rw [hstart]; simp)]
  unfold vterm_input_feed_body
  rw [if_neg hne27]
  rw [if_pos hlen]
  rw [if_pos hcap]
  dsimp only
  rw [hbufe]
  rw [hm]
  rw [if_neg (by decide)]
  rw [hck]
  rw [if_pos rfl]

theorem feed_match_step (T t : Nat) (s : Sys) (c : Nat) (v : Int)
    (hstart : s.s_esc_start = t)
    (hlen : 0 < s.s_esc_buf.length) (hcap : s.s_esc_buf.length < 15)
    (hm : match_vt_hotkey (s.s_esc_buf ++ [c]) = v) (hv : 0 ≤ v)
    (hne27 : ¬(s.s_esc_buf.length = 0 ∧ c = 27)) :
    vterm_input_feed T t s c = (vterm_switch { s with s_esc_buf := [] } v, 1) := by
  rw [vterm_input_feed_fresh T t s c (by rw [hstart]; simp)]
  unfold vterm_input_feed_body
  rw [if_neg hne27]
  rw [if_pos hlen]
  rw [if_pos hcap]
  dsimp only
  rw [hm]
  rw [if_pos hv]

theorem vterm_switch_queues (s : Sys) (id : Int) (j : Fin VTERM_COUNT) :
    ((vterm_switch s id).vterms j).input_queue = (s.vterms j).input_queue := by
  unfold vterm_switch
  split_ifs
  · rfl
  · rfl
  · dsimp only
    by_cases hj : j = s.s_active_vt
    · subst hj
      rw [Function.update_same]
    · rw [Function.update_noteq hj]

/-- C8: feeding `ESC [ 1 1 ~` byte by byte from an idle detector consumes
all five bytes (every return is 0 until the final byte returns 1), invokes
`vterm_switch` with target 0, and delivers nothing to any session's input
queue. -/
theorem claim_C8_f1_hotkey_switch (T t : Nat) (s : Sys) (hbuf : s.s_esc_buf = []) :
    feed_list T t s [27, 91, 49, 49, 126] =
      (vterm_switch { s with s_esc_buf := [], s_esc_start := t } 0, [0, 0, 0, 0, 1]) ∧
    ∀ j : Fin VTERM_COUNT,
      ((feed_list T t s [27, 91, 49, 49, 126]).1.vterms j).input_queue =
        (s.vterms j).input_queue := by
  have h1 := feed_start_step T t s hbuf
  have h2 := feed_buffering_step T t { s with s_esc_buf := [27], s_esc_start := t } 91
    [27, 91] rfl (by dsimp only; decide) (by dsimp only; decide) rfl (by decide)
    (by decide) (by dsimp only; decide)
  have h3 := feed_buffering_step T t { s with s_esc_buf := [27, 91], s_esc_start := t } 49
    [27, 91, 49] rfl (by dsimp only; decide) (by dsimp only; decide) rfl (by decide)
    (by decide) (by dsimp only; decide)
  have h4 := feed_buffering_step T t { s with s_esc_buf := [27, 91, 49], s_esc_start := t } 49
    [27, 91, 49, 49] rfl (by dsimp only; decide) (by dsimp only; decide) rfl (by decide)
    (by decide) (by dsimp only; decide)
  have h5 := feed_match_step T t { s with s_esc_buf := [27, 91, 49, 49], s_esc_start := t } 126 0
    rfl (by dsimp only; decide) (by dsimp only; decide) (by dsimp only; decide)
    (by decide) (by dsimp only; decide)
  have hstate : feed_list T t s [27, 91, 49, 49, 126] =
      (vterm_switch { s with s_esc_buf := [], s_esc_start := t } 0, [0, 0, 0, 0, 1]) := by
    simp only [feed_list, List.foldl_cons, List.foldl_nil]
    rw [h1]
    dsimp only
    rw [h2]
    dsimp only
    rw [h3]
    dsimp only
    rw [h4]
    dsimp only
    rw [h5]
    rfl
  refine ⟨hstate, ?_⟩
  intro j
  rw [hstate]
  rw [vterm_switch_queues]

theorem feed_giveup_step (T t : Nat) (s : Sys) (c : Nat) (newbuf : List Nat)
    (hstart : s.s_esc_start = t)
    (hlen : 0 < s.s_esc_buf.length) (hcap : s.s_esc_buf.length < 15)
    (hbufe : s.s_esc_buf ++ [c] = newbuf)
    (hm : match_vt_hotkey newbuf = -1)
    (hck : could_be_hotkey newbuf = false)
    (hne27 : ¬(s.s_esc_buf.length = 0 ∧ c = 27)) :
    vterm_input_feed T t s c = (flush_input_buffer { s with s_esc_buf := newbuf }, 0) := by
  rw [vterm_input_feed_fresh T t s c (by rw [hstart]; simp)]
  unfold vterm_input_feed_body
  rw [if_neg hne27]
  rw [if_pos hlen]
  rw [if_pos hcap]
  dsimp only
  rw [hbufe, hm]
  rw [if_neg (by decide)]
  rw [hck]
  rw [if_neg (by decide)]

theorem vterm_send_input_active_spec (s : Sys) (b : Nat)
    (hroom : (s.vterms s.s_active_vt).input_queue.length < INPUT_QUEUE_SIZE) :
    vterm_send_input s ((s.s_active_vt.val : Nat) : Int) b =
      { s with
        vterms := Function.update s.vterms s.s_active_vt
          ({ s.vterms s.s_active_vt with
            input_queue := (s.vterms s.s_active_vt).input_queue ++ [b] }) } := by
  unfold vterm_send_input
  rw [dif_pos ⟨Int.ofNat_nonneg _, by exact_mod_cast s.s_active_vt.isLt⟩]
  simp only [vtIndex_val]
  rw [if_pos hroom]

theorem foldl_send_queue (bs : List Nat) : ∀ s : Sys,
    (s.vterms s.s_active_vt).input_queue.length + bs.length ≤ INPUT_QUEUE_SIZE →
    ((bs.foldl (fun st b => vterm_send_input st ((st.s_active_vt.val : Nat) : Int) b) s).vterms
        s.s_active_vt).input_queue = (s.vterms s.s_active_vt).input_queue ++ bs ∧
    (∀ j : Fin VTERM_COUNT, j ≠ s.s_active_vt →
      ((bs.foldl (fun st b => vterm_send_input st ((st.s_active_vt.val : Nat) : Int) b)
          s).vterms j).input_queue = (s.vterms j).input_queue) ∧
    (bs.foldl (fun st b => vterm_send_input st ((st.s_active_vt.val : Nat) : Int) b)
        s).s_active_vt = s.s_active_vt ∧
    (bs.foldl (fun st b => vterm_send_input st ((st.s_active_vt.val : Nat) : Int) b)
        s).s_esc_buf = s.s_esc_buf ∧
    (bs.foldl (fun st b => vterm_send_input st ((st.s_active_vt.val : Nat) : Int) b)
        s).s_esc_start = s.s_esc_start := by
  induction bs with
  | nil =>
    intro s _
    exact ⟨by simp, fun j _ => rfl, rfl, rfl, rfl⟩
  | cons x bs ih =>
    intro s hroom
    simp only [List.length_cons] at hroom
    have hstep := vterm_send_input_active_spec s x (by omega)
    simp only [List.foldl_cons]
    rw [hstep]
    have hih := ih ({ s with
      vterms := Function.update s.vterms s.s_active_vt
        ({ s.vterms s.s_active_vt with
          input_queue := (s.vterms s.s_active_vt).input_queue ++ [x] }) })
      (by
        dsimp only
        rw [Function.update_same]
        simp only [List.length_append, List.length_singleton]
        omega)
    dsimp only at hih
    rw [Function.update_same] at hih
    refine ⟨?_, ?_, hih.2.2.1, hih.2.2.2.1, hih.2.2.2.2⟩
    · rw [hih.1]
      simp [List.append_assoc]
    · intro j hj
      rw [hih.2.1 j hj, Function.update_noteq hj]

theorem flush_spec (s : Sys)
    (hroom : (s.vterms s.s_active_vt).input_queue.length + s.s_esc_buf.length ≤ INPUT_QUEUE_SIZE) :
    ((flush_input_buffer s).vterms s.s_active_vt).input_queue
      = (s.vterms s.s_active_vt).input_queue ++ s.s_esc_buf ∧
    (∀ j : Fin VTERM_COUNT, j ≠ s.s_active_vt →
      ((flush_input_buffer s).vterms j).input_queue = (s.vterms j).input_queue) ∧
    (flush_input_buffer s).s_esc_buf = [] ∧
    (flush_input_buffer s).s_active_vt = s.s_active_vt := by
  have h := foldl_send_queue s.s_esc_buf s hroom
  unfold flush_input_buffer
  exact ⟨h.1, fun j hj => h.2.1 j hj, rfl, h.2.2.1⟩

/-- With `ESC [ 1 1` buffered, any next byte that is not `~`, a digit
or `;` does not complete a hotkey (the feed returns 0).  If that byte is a
sequence terminator (`u` or an uppercase letter) the detector gives up at
once and flushes all five bytes, in order, into the active session's input
queue; otherwise the byte is buffered and the first feed after the ~20ms
timeout (`T < t' - t`) flushes the whole buffer, in order, ahead of the
newly fed byte. -/
theorem esc11_giveup_cases (T t tt : Nat) (s : Sys) (b e : Nat)
    (hbuf : s.s_esc_buf = [27, 91, 49, 49]) (hstart : s.s_esc_start = t)
    (hb : b < 256) (hb126 : ¬b = 126) (hbd : ¬(48 ≤ b ∧ b ≤ 57)) (hb59 : ¬b = 59)
    (hroom : (s.vterms s.s_active_vt).input_queue.length + 6 ≤ INPUT_QUEUE_SIZE)
    (htime : T < tt - t) (he27 : ¬e = 27) :
    (vterm_input_feed T t s b).2 = 0 ∧
    (b = 117 ∨ (65 ≤ b ∧ b ≤ 90) →
      ((vterm_input_feed T t s b).1.vterms s.s_active_vt).input_queue
          = (s.vterms s.s_active_vt).input_queue ++ [27, 91, 49, 49, b] ∧
      (vterm_input_feed T t s b).1.s_esc_buf = []) ∧
    (¬(b = 117 ∨ (65 ≤ b ∧ b ≤ 90)) →
      vterm_input_feed T t s b = ({ s with s_esc_buf := [27, 91, 49, 49, b] }, 0) ∧
      ((vterm_input_feed T tt (vterm_input_feed T t s b).1 e).1.vterms
          s.s_active_vt).input_queue
        = (s.vterms s.s_active_vt).input_queue ++ [27, 91, 49, 49, b, e] ∧
      (vterm_input_feed T tt (vterm_input_feed T t s b).1 e).1.s_esc_buf = []) := by
  have hdecM : ∀ x, x < 256 → ¬x = 126 → ¬(48 ≤ x ∧ x ≤ 57) → ¬x = 59 →
      match_vt_hotkey [27, 91, 49, 49, x] = -1 := by
    decide
  have hdecF : ∀ x, x < 256 →
      ((x = 117 ∨ (65 ≤ x ∧ x ≤ 90)) → could_be_hotkey [27, 91, 49, 49, x] = false) := by
    decide
  have hdecT : ∀ x, x < 256 →
      (x = 126 ∨ (48 ≤ x ∧ x ≤ 57) ∨ x = 59 ∨ x = 117 ∨ (65 ≤ x ∧ x ≤ 90) ∨
        could_be_hotkey [27, 91, 49, 49, x] = true) := by
    decide
  have hmb := hdecM b hb hb126 hbd hb59
  have hckF := hdecF b hb
  have hckT : ¬(b = 117 ∨ (65 ≤ b ∧ b ≤ 90)) → could_be_hotkey [27, 91, 49, 49, b] = true := by
    intro hn
    rcases hdecT b hb with h | h | h | h | h | h
    · exact absurd h hb126
    · exact absurd h hbd
    · exact absurd h hb59
    · exact absurd (Or.inl h) hn
    · exact absurd (Or.inr h) hn
    · exact h
  have hlen4 : 0 < s.s_esc_buf.length := by rw [hbuf]; decide
  have hcap4 : s.s_esc_buf.length < 15 := by rw [hbuf]; decide
  have hbufe : s.s_esc_buf ++ [b] = [27, 91, 49, 49, b] := by rw [hbuf]; rfl
  have hne27 : ¬(s.s_esc_buf.length = 0 ∧ b = 27) := by rw [hbuf]; simp
  by_cases hterm : b = 117 ∨ (65 ≤ b ∧ b ≤ 90)
  · have hstep := feed_giveup_step T t s b [27, 91, 49, 49, b] hstart hlen4 hcap4 hbufe
      hmb (hckF hterm) hne27
    have hfl := flush_spec { s with s_esc_buf := [27, 91, 49, 49, b] }
      (by
        dsimp only
        simp only [List.length_cons, List.length_nil]
        omega)
    refine ⟨by rw [hstep], fun _ => ⟨?_, ?_⟩, fun hn => absurd hterm hn⟩
    · rw [hstep]
      exact hfl.1
    · rw [hstep]
      exact hfl.2.2.1
  · have hstep := feed_buffering_step T t s b [27, 91, 49, 49, b] hstart hlen4 hcap4 hbufe
      hmb (hckT hterm) hne27
    have hfl := flush_spec { s with s_esc_buf := [27, 91, 49, 49, b] }
      (by
        dsimp only
        simp only [List.length_cons, List.length_nil]
        omega)
    have hB : vterm_input_feed T tt ({ s with s_esc_buf := [27, 91, 49, 49, b] }) e =
        (vterm_send_input (flush_input_buffer { s with s_esc_buf := [27, 91, 49, 49, b] })
          ((((flush_input_buffer { s with s_esc_buf := [27, 91, 49, 49, b] }).s_active_vt.val
            : Nat) : Int)) e, 0) := by
      rw [vterm_input_feed_stale T tt ({ s with s_esc_buf := [27, 91, 49, 49, b] }) e
        ⟨by simp, by dsimp only; rw [hstart]; exact htime⟩]
      unfold vterm_input_feed_body
      rw [if_neg (fun h => he27 h.2)]
      rw [if_neg (by rw [hfl.2.2.1]; simp)]
    have hsend := vterm_send_input_active_spec
      (flush_input_buffer { s with s_esc_buf := [27, 91, 49, 49, b] }) e
      (by
        rw [hfl.2.2.2, hfl.1]
        dsimp only
        simp only [List.length_append, List.length_cons, List.length_nil]
        omega)
    refine ⟨by rw [hstep], fun ht => absurd ht hterm, fun _ => ⟨hstep, ?_, ?_⟩⟩
    · rw [hstep]
      dsimp only
      rw [hB, hsend]
      dsimp only
      rw [hfl.2.2.2]
      rw [Function.update_same]
      rw [hfl.1]
      dsimp only
      simp [List.append_assoc]
    · rw [hstep]
      dsimp only
      rw [hB, hsend]
      dsimp only
      exact hfl.2.2.1

/-- Witness for C8 on the blank system at `T = 2`, `t = 5`. -/
theorem claim_C8_f1_hotkey_switch_witness :
    sysFixture.s_esc_buf = [] ∧
    (feed_list 2 5 sysFixture [27, 91, 49, 49, 126] =
      (vterm_switch { sysFixture with s_esc_buf := [], s_esc_start := 5 } 0,
        [0, 0, 0, 0, 1]) ∧
    ∀ j : Fin VTERM_COUNT,
      ((feed_list 2 5 sysFixture [27, 91, 49, 49, 126]).1.vterms j).input_queue =
        (sysFixture.vterms j).input_queue) :=
  ⟨rfl, claim_C8_f1_hotkey_switch 2 5 sysFixture rfl⟩

/-- A system with `ESC [ 1 1` already buffered since tick 5. -/
def sysFixture9 : Sys :=
  { sysFixture with s_esc_buf := [27, 91, 49, 49], s_esc_start := 5 }


/-- A buffer longer than 10 bytes is never a viable hotkey prefix. -/
theorem could_be_hotkey_too_long (buf : List Nat) (h : 10 < buf.length) :
    could_be_hotkey buf = false := by
  simp only [could_be_hotkey]
  split_ifs <;> first | rfl | (exfalso; omega)

/-- A wrong second byte (neither `O` nor `[`) is never a viable prefix. -/
theorem could_be_hotkey_wrong_second (c : Nat) (h79 : ¬c = 79) (h91 : ¬c = 91) :
    could_be_hotkey [27, c] = false := by
  simp [could_be_hotkey, h79, h91]

/-- No two-byte buffer matches a hotkey. -/
theorem match_vt_hotkey_wrong_second (c : Nat) : match_vt_hotkey [27, c] = -1 := by
  simp [match_vt_hotkey]

/-- The universal give-up step: a byte fed to a buffering detector whose
extended sequence neither matches now nor could still become a hotkey
flushes the entire sequence (through `flush_input_buffer`). -/
theorem feed_giveup_general (T t : Nat) (s : Sys) (c : Nat) (newbuf : List Nat)
    (hfresh : ¬(T < t - s.s_esc_start))
    (hlen : 0 < s.s_esc_buf.length)
    (hbufe : (if s.s_esc_buf.length < 15 then s.s_esc_buf ++ [c] else s.s_esc_buf) = newbuf)
    (hm : match_vt_hotkey newbuf = -1)
    (hck : could_be_hotkey newbuf = false) :
    vterm_input_feed T t s c = (flush_input_buffer { s with s_esc_buf := newbuf }, 0) := by
  rw [vterm_input_feed_fresh T t s c (fun h => hfresh h.2)]
  unfold vterm_input_feed_body
  rw [if_neg (fun h => absurd h.1 (by omega))]
  rw [if_pos hlen]
  by_cases hcap : s.s_esc_buf.length < 15
  · rw [if_pos hcap]
    rw [if_pos hcap] at hbufe
    dsimp only
    rw [hbufe, hm]
    rw [if_neg (by decide)]
    rw [hck]
    rw [if_neg (by decide)]
  · rw [if_neg hcap]
    rw [if_neg hcap] at hbufe
    dsimp only
    rw [← hbufe] at hm hck
    rw [hm]
    rw [if_neg (by decide)]
    rw [hck]
    rw [if_neg (by decide)]
    rw [← hbufe]

/-- C9: whenever the buffered sequence cannot possibly extend to a hotkey
match, the whole sequence is flushed byte-by-byte, in its original order,
into the active session's input queue.  The conjuncts cover the claim's
give-up reasons: a sequence grown too long (> 10 bytes) is never viable; a
wrong second byte is never viable and never matches; feeding a byte whose
extended sequence neither matches nor stays viable flushes the entire
sequence in order (for any buffered state); the first feed past the ~20ms
timeout (`T < t - start`) flushes the buffer in order before processing
its byte; and, in particular, `ESC [ 1 1` followed by any byte other than
`~`, a digit or `;` is not treated as a hotkey — terminator bytes flush
all five bytes at once, any other byte is buffered and flushed in order,
ahead of the next byte, by the first feed past the timeout. -/
theorem claim_C9_hotkey_giveup_flush :
    (∀ buf : List Nat, 10 < buf.length → could_be_hotkey buf = false) ∧
    (∀ c : Nat, ¬c = 79 → ¬c = 91 →
      could_be_hotkey [27, c] = false ∧ match_vt_hotkey [27, c] = -1) ∧
    (∀ (T t : Nat) (s : Sys) (c : Nat) (newbuf : List Nat),
      0 < s.s_esc_buf.length →
      ¬(T < t - s.s_esc_start) →
      (if s.s_esc_buf.length < 15 then s.s_esc_buf ++ [c] else s.s_esc_buf) = newbuf →
      match_vt_hotkey newbuf = -1 →
      could_be_hotkey newbuf = false →
      (s.vterms s.s_active_vt).input_queue.length + newbuf.length ≤ INPUT_QUEUE_SIZE →
      vterm_input_feed T t s c = (flush_input_buffer { s with s_esc_buf := newbuf }, 0) ∧
      ((vterm_input_feed T t s c).1.vterms s.s_active_vt).input_queue
        = (s.vterms s.s_active_vt).input_queue ++ newbuf ∧
      (vterm_input_feed T t s c).1.s_esc_buf = [] ∧
      (vterm_input_feed T t s c).2 = 0) ∧
    (∀ (T t : Nat) (s : Sys) (c : Nat),
      0 < s.s_esc_buf.length →
      T < t - s.s_esc_start →
      (s.vterms s.s_active_vt).input_queue.length + s.s_esc_buf.length ≤ INPUT_QUEUE_SIZE →
      vterm_input_feed T t s c = vterm_input_feed_body T t (flush_input_buffer s) c ∧
      ((flush_input_buffer s).vterms s.s_active_vt).input_queue
        = (s.vterms s.s_active_vt).input_queue ++ s.s_esc_buf ∧
      (flush_input_buffer s).s_esc_buf = []) ∧
    (∀ (T t tt : Nat) (s : Sys) (b e : Nat),
      s.s_esc_buf = [27, 91, 49, 49] → s.s_esc_start = t →
      b < 256 → ¬b = 126 → ¬(48 ≤ b ∧ b ≤ 57) → ¬b = 59 →
      (s.vterms s.s_active_vt).input_queue.length + 6 ≤ INPUT_QUEUE_SIZE →
      T < tt - t → ¬e = 27 →
      (vterm_input_feed T t s b).2 = 0 ∧
      (b = 117 ∨ (65 ≤ b ∧ b ≤ 90) →
        ((vterm_input_feed T t s b).1.vterms s.s_active_vt).input_queue
            = (s.vterms s.s_active_vt).input_queue ++ [27, 91, 49, 49, b] ∧
        (vterm_input_feed T t s b).1.s_esc_buf = []) ∧
      (¬(b = 117 ∨ (65 ≤ b ∧ b ≤ 90)) →
        vterm_input_feed T t s b = ({ s with s_esc_buf := [27, 91, 49, 49, b] }, 0) ∧
        ((vterm_input_feed T tt (vterm_input_feed T t s b).1 e).1.vterms
            s.s_active_vt).input_queue
          = (s.vterms s.s_active_vt).input_queue ++ [27, 91, 49, 49, b, e] ∧
        (vterm_input_feed T tt (vterm_input_feed T t s b).1 e).1.s_esc_buf = [])) := by
  refine ⟨could_be_hotkey_too_long,
    fun c h79 h91 => ⟨could_be_hotkey_wrong_second c h79 h91, match_vt_hotkey_wrong_second c⟩,
    ?_, ?_, esc11_giveup_cases⟩
  · intro T t s c newbuf hlen hfresh hbufe hm hck hroom
    have hstep := feed_giveup_general T t s c newbuf hfresh hlen hbufe hm hck
    have hfl := flush_spec { s with s_esc_buf := newbuf }
      (by dsimp only; exact hroom)
    refine ⟨hstep, ?_, ?_, by rw [hstep]⟩
    · rw [hstep]
      exact hfl.1
    · rw [hstep]
      exact hfl.2.2.1
  · intro T t s c hlen htime hroom
    have hfl := flush_spec s hroom
    exact ⟨vterm_input_feed_stale T t s c ⟨hlen, htime⟩, hfl.1, hfl.2.2.1⟩

/-- Witness for C9: an 11-byte buffer, the wrong second byte `'x'`, a
give-up flush on the terminator `'u'` after `ESC [ 1 1`, a timeout flush,
and the particular `ESC [ 1 1` then `'x'` then timeout trace, all at
concrete states. -/
theorem claim_C9_hotkey_giveup_flush_witness :
    (10 < ([27, 91, 49, 49, 49, 49, 49, 49, 49, 49, 49] : List Nat).length ∧
      could_be_hotkey [27, 91, 49, 49, 49, 49, 49, 49, 49, 49, 49] = false) ∧
    (¬(120 : Nat) = 79 ∧ ¬(120 : Nat) = 91 ∧
      (could_be_hotkey [27, 120] = false ∧ match_vt_hotkey [27, 120] = -1)) ∧
    (0 < sysFixture9.s_esc_buf.length ∧ ¬((2 : Nat) < 5 - sysFixture9.s_esc_start) ∧
      (if sysFixture9.s_esc_buf.length < 15 then sysFixture9.s_esc_buf ++ [117]
        else sysFixture9.s_esc_buf) = [27, 91, 49, 49, 117] ∧
      match_vt_hotkey [27, 91, 49, 49, 117] = -1 ∧
      could_be_hotkey [27, 91, 49, 49, 117] = false ∧
      (sysFixture9.vterms sysFixture9.s_active_vt).input_queue.length +
        ([27, 91, 49, 49, 117] : List Nat).length ≤ INPUT_QUEUE_SIZE ∧
      (vterm_input_feed 2 5 sysFixture9 117 =
          (flush_input_buffer { sysFixture9 with s_esc_buf := [27, 91, 49, 49, 117] }, 0) ∧
        ((vterm_input_feed 2 5 sysFixture9 117).1.vterms sysFixture9.s_active_vt).input_queue
          = (sysFixture9.vterms sysFixture9.s_active_vt).input_queue ++ [27, 91, 49, 49, 117] ∧
        (vterm_input_feed 2 5 sysFixture9 117).1.s_esc_buf = [] ∧
        (vterm_input_feed 2 5 sysFixture9 117).2 = 0)) ∧
    (0 < sysFixture9.s_esc_buf.length ∧ (2 : Nat) < 100 - sysFixture9.s_esc_start ∧
      (sysFixture9.vterms sysFixture9.s_active_vt).input_queue.length +
        sysFixture9.s_esc_buf.length ≤ INPUT_QUEUE_SIZE ∧
      (vterm_input_feed 2 100 sysFixture9 65 =
          vterm_input_feed_body 2 100 (flush_input_buffer sysFixture9) 65 ∧
        ((flush_input_buffer sysFixture9).vterms sysFixture9.s_active_vt).input_queue
          = (sysFixture9.vterms sysFixture9.s_active_vt).input_queue ++ sysFixture9.s_esc_buf ∧
        (flush_input_buffer sysFixture9).s_esc_buf = [])) ∧
    (sysFixture9.s_esc_buf = [27, 91, 49, 49] ∧ sysFixture9.s_esc_start = 5 ∧
      (120 : Nat) < 256 ∧ ¬(120 : Nat) = 126 ∧ ¬(48 ≤ (120 : Nat) ∧ (120 : Nat) ≤ 57) ∧
      ¬(120 : Nat) = 59 ∧
      (sysFixture9.vterms sysFixture9.s_active_vt).input_queue.length + 6 ≤ INPUT_QUEUE_SIZE ∧
      (2 : Nat) < 100 - 5 ∧ ¬(65 : Nat) = 27 ∧
      ((vterm_input_feed 2 5 sysFixture9 120).2 = 0 ∧
      ((120 : Nat) = 117 ∨ (65 ≤ (120 : Nat) ∧ (120 : Nat) ≤ 90) →
        ((vterm_input_feed 2 5 sysFixture9 120).1.vterms sysFixture9.s_active_vt).input_queue
            = (sysFixture9.vterms sysFixture9.s_active_vt).input_queue ++ [27, 91, 49, 49, 120] ∧
        (vterm_input_feed 2 5 sysFixture9 120).1.s_esc_buf = []) ∧
      (¬((120 : Nat) = 117 ∨ (65 ≤ (120 : Nat) ∧ (120 : Nat) ≤ 90)) →
        vterm_input_feed 2 5 sysFixture9 120 =
          ({ sysFixture9 with s_esc_buf := [27, 91, 49, 49, 120] }, 0) ∧
        ((vterm_input_feed 2 100 (vterm_input_feed 2 5 sysFixture9 120).1 65).1.vterms
            sysFixture9.s_active_vt).input_queue
          = (sysFixture9.vterms sysFixture9.s_active_vt).input_queue ++ [27, 91, 49, 49, 120, 65] ∧
        (vterm_input_feed 2 100 (vterm_input_feed 2 5 sysFixture9 120).1 65).1.s_esc_buf = []))) :=
  ⟨⟨by decide, claim_C9_hotkey_giveup_flush.1 _ (by decide)⟩,
   ⟨by decide, by decide, claim_C9_hotkey_giveup_flush.2.1 120 (by decide) (by decide)⟩,
   ⟨by decide, by decide, by decide, by decide, by decide, by decide,
    claim_C9_hotkey_giveup_flush.2.2.1 2 5 sysFixture9 117 [27, 91, 49, 49, 117]
      (by decide) (by decide) (by decide) (by decide) (by decide) (by decide)⟩,
   ⟨by decide, by decide, by decide,
    claim_C9_hotkey_giveup_flush.2.2.2.1 2 100 sysFixture9 65
      (by decide) (by decide) (by decide)⟩,
   ⟨rfl, rfl, by decide, by decide, by decide, by decide, by decide, by decide, by decide,
    claim_C9_hotkey_giveup_flush.2.2.2.2 2 5 100 sysFixture9 120 65 rfl rfl (by decide)
      (by decide) (by decide) (by decide) (by decide) (by decide) (by decide)⟩⟩
